import Mathlib

/-!
Verification development for the trailbook communication service.

This file gives a shallow embedding of the service's core subsystems and
proves properties about them:

* the connection-request store and its state machine
  (src/modules/communication/connection-request.service.ts and the
  ConnectionRequest schema with its partial unique index);
* the message log with cursor pagination and read receipts
  (src/modules/communication/message.service.ts);
* the trail-connection eligibility engine
  (src/modules/trail-connection/trail-connection.service.ts and the
  TrailConnection schema);
* the queue consumer retry/dead-letter protocol
  (src/modules/communication/consumers, identical in the notification
  and file-upload consumers).

Mongo documents become Lean structures, collections become lists, each
service method becomes a pure function threading the store state
explicitly, and thrown framework exceptions become an error sum type.
Ids assigned by the database are modelled as naturals handed out by the
store; user ids stay strings (canonical 24-character hex ObjectId form).
-/

/-- One hexadecimal digit, as accepted in a canonical ObjectId string. -/
def isHexDigit (c : Char) : Bool :=
  c.isDigit || (c ≥ 'a' && c ≤ 'f') || (c ≥ 'A' && c ≤ 'F')

/-- Model of Types.ObjectId.isValid on the canonical 24-character hex
representation of an ObjectId. -/
def isValidObjectId (s : String) : Bool :=
  s.length == 24 && s.toList.all isHexDigit

/-- Domain errors: BadRequestException and NotFoundException carrying their
message, exactly as the services throw them. -/
inductive DomErr where
  | badRequest (msg : String)
  | notFound (msg : String)
deriving DecidableEq

/-- ConnectionRequestStatus from src/models/connection-request.schema.ts. -/
inductive ReqStatus where
  | pending
  | accepted
  | rejected
deriving DecidableEq, BEq

/-- Rendering of a status into the string interpolated into the
"Request is already ..." error messages. -/
def statusText : ReqStatus → String
  | .pending => "pending"
  | .accepted => "accepted"
  | .rejected => "rejected"

/-- A ConnectionRequest document: requester, recipient and status.
The document id is a store-assigned natural. -/
structure ConnReq where
  id : Nat
  requesterId : String
  recipientId : String
  status : ReqStatus
deriving DecidableEq

/-- The ConnectionRequest collection plus the id counter the store uses to
assign fresh document ids. -/
structure ConnStore where
  reqs : List ConnReq
  nextId : Nat
deriving DecidableEq

/-- The findOne used by sendRequest and areConnected: first request between
the two users, in either direction, with the given status. -/
def findPairWithStatus (reqs : List ConnReq) (a b : String) (st : ReqStatus) :
    Option ConnReq :=
  reqs.find? (fun r =>
    ((r.requesterId == a && r.recipientId == b) ||
     (r.requesterId == b && r.recipientId == a)) && r.status == st)

/-- sendRequest from connection-request.service.ts: validate the ids, refuse
self requests, refuse when already connected or when a pending request exists
in either direction, otherwise create a new pending request. -/
def sendRequest (s : ConnStore) (requesterId recipientId : String) :
    Except DomErr (ConnStore × Nat) :=
  if !isValidObjectId requesterId || !isValidObjectId recipientId then
    .error (.badRequest "Invalid userId")
  else if requesterId == recipientId then
    .error (.badRequest "Cannot send request to yourself")
  else
    match findPairWithStatus s.reqs requesterId recipientId .accepted with
    | some _ => .error (.badRequest "Already connected")
    | none =>
      match findPairWithStatus s.reqs requesterId recipientId .pending with
      | some p =>
        if p.requesterId == requesterId then
          .error (.badRequest "Request already sent")
        else
          .error (.badRequest "You have a pending request from this user")
      | none =>
        .ok ({ reqs := s.reqs ++
                 [{ id := s.nextId, requesterId := requesterId,
                    recipientId := recipientId, status := .pending }],
               nextId := s.nextId + 1 }, s.nextId)

/-- acceptRequest from connection-request.service.ts. Request ids are
naturals in this model, so the malformed-request-id branch of the source's
validity check collapses into the not-found branch. -/
def acceptRequest (s : ConnStore) (userId : String) (requestId : Nat) :
    Except DomErr ConnStore :=
  if !isValidObjectId userId then
    .error (.badRequest "Invalid userId or requestId")
  else
    match s.reqs.find? (fun r => r.id == requestId) with
    | none => .error (.notFound "Request not found")
    | some r =>
      if r.recipientId != userId then
        .error (.badRequest "You are not the recipient of this request")
      else if r.status != .pending then
        .error (.badRequest ("Request is already " ++ statusText r.status))
      else
        .ok { s with reqs := s.reqs.map (fun q =>
                if q.id == requestId then { q with status := .accepted } else q) }

/-- rejectRequest from connection-request.service.ts; identical to
acceptRequest except for the written status. -/
def rejectRequest (s : ConnStore) (userId : String) (requestId : Nat) :
    Except DomErr ConnStore :=
  if !isValidObjectId userId then
    .error (.badRequest "Invalid userId or requestId")
  else
    match s.reqs.find? (fun r => r.id == requestId) with
    | none => .error (.notFound "Request not found")
    | some r =>
      if r.recipientId != userId then
        .error (.badRequest "You are not the recipient of this request")
      else if r.status != .pending then
        .error (.badRequest ("Request is already " ++ statusText r.status))
      else
        .ok { s with reqs := s.reqs.map (fun q =>
                if q.id == requestId then { q with status := .rejected } else q) }

/-- areConnected from connection-request.service.ts: an accepted request
exists between the two users in either direction. -/
def areConnected (s : ConnStore) (userId1 userId2 : String) : Bool :=
  if !isValidObjectId userId1 || !isValidObjectId userId2 then
    false
  else
    (findPairWithStatus s.reqs userId1 userId2 .accepted).isSome

/-- The application-level checks sendRequest performs before inserting,
read against one snapshot of the collection (the snapshot both concurrent
calls see before either insert lands). -/
def sendRequestChecksPass (reqs : List ConnReq) (requesterId recipientId : String) :
    Bool :=
  isValidObjectId requesterId && isValidObjectId recipientId &&
  requesterId != recipientId &&
  (findPairWithStatus reqs requesterId recipientId .accepted).isNone &&
  (findPairWithStatus reqs requesterId recipientId .pending).isNone

/-- The partial unique index of the ConnectionRequest schema: unique on
(requesterId, recipientId, status) restricted to pending documents. The
insert of a pending request is admitted when no pending document with the
same ordered (requesterId, recipientId) pair exists. -/
def uniqueIndexAdmits (reqs : List ConnReq) (requesterId recipientId : String) :
    Bool :=
  !(reqs.any (fun r =>
      r.requesterId == requesterId && r.recipientId == recipientId &&
      r.status == .pending))

/-- An insert guarded only by the storage-level unique index: this is what
remains of sendRequest when its application checks have already run against
an earlier snapshot of the collection. -/
def insertPendingUnderIndex (s : ConnStore) (requesterId recipientId : String) :
    Option ConnStore :=
  if uniqueIndexAdmits s.reqs requesterId recipientId then
    some { reqs := s.reqs ++
             [{ id := s.nextId, requesterId := requesterId,
                recipientId := recipientId, status := .pending }],
           nextId := s.nextId + 1 }
  else
    none

/-- Number of pending requests between two users, counting both directions. -/
def countPendingPair (reqs : List ConnReq) (a b : String) : Nat :=
  (reqs.filter (fun r =>
    ((r.requesterId == a && r.recipientId == b) ||
     (r.requesterId == b && r.recipientId == a)) && r.status == .pending)).length

/-- A Message document (src/models/message.schema.ts). Timestamps are
naturals; the document id is a store-assigned natural. -/
structure Msg where
  id : Nat
  senderId : String
  receiverId : String
  content : String
  hasFile : Bool
  fileKey : Option String
  fileUrl : Option String
  fileName : Option String
  fileType : Option String
  fileSize : Option Nat
  isFileUploaded : Bool
  isRead : Bool
  readAt : Option Nat
  createdAt : Nat
deriving DecidableEq

/-- The Message collection plus the id counter. -/
structure MsgStore where
  msgs : List Msg
  nextId : Nat
deriving DecidableEq

/-- The attachment descriptor accepted by sendMessage. -/
structure FileData where
  fileKey : String
  fileName : String
  contentType : String
  size : Nat
deriving DecidableEq

/-- A message as shaped by the getMessages response mapping. -/
structure MsgView where
  id : Nat
  senderId : String
  receiverId : String
  content : String
  hasFile : Bool
  fileKey : Option String
  fileUrl : Option String
  fileName : Option String
  fileType : Option String
  fileSize : Option Nat
  isFileUploaded : Bool
  isRead : Bool
  readAt : Option Nat
  createdAt : Nat
deriving DecidableEq

/-- Pagination direction of getMessages. -/
inductive Direction where
  | before
  | after
deriving DecidableEq, BEq

/-- The pair query used by getMessages: messages exchanged between the two
users in either direction. -/
def pairPred (u o : String) (m : Msg) : Bool :=
  (m.senderId == u && m.receiverId == o) ||
  (m.senderId == o && m.receiverId == u)

/-- sendMessage from message.service.ts: validate, refuse self sends, gate on
areConnected, then persist the message with isFileUploaded false and
isRead false. The storage-assigned createdAt is the call time `now`. -/
def sendMessage (conns : ConnStore) (store : MsgStore)
    (senderId receiverId content : String) (fileData : Option FileData)
    (now : Nat) : Except DomErr (MsgStore × Msg) :=
  if !isValidObjectId senderId || !isValidObjectId receiverId then
    .error (.badRequest "Invalid userId")
  else if senderId == receiverId then
    .error (.badRequest "Cannot send message to yourself")
  else if !areConnected conns senderId receiverId then
    .error (.badRequest "Users must be connected to send messages")
  else
    let m : Msg :=
      { id := store.nextId, senderId := senderId, receiverId := receiverId,
        content := content, hasFile := fileData.isSome,
        fileKey := fileData.map (·.fileKey),
        fileUrl := none,
        fileName := fileData.map (·.fileName),
        fileType := fileData.map (·.contentType),
        fileSize := fileData.map (·.size),
        isFileUploaded := false, isRead := false, readAt := none,
        createdAt := now }
    .ok ({ msgs := store.msgs ++ [m], nextId := store.nextId + 1 }, m)

/-- The message store observed after a sendMessage call: unchanged when the
call fails. -/
def sendMessageStore (conns : ConnStore) (store : MsgStore)
    (senderId receiverId content : String) (fileData : Option FileData)
    (now : Nat) : MsgStore :=
  match sendMessage conns store senderId receiverId content fileData now with
  | .ok (store', _) => store'
  | .error _ => store

/-- Insert into a list kept in descending createdAt order. -/
def insertDesc (m : Msg) : List Msg → List Msg
  | [] => [m]
  | x :: xs =>
    if x.createdAt ≤ m.createdAt then m :: x :: xs else x :: insertDesc m xs

/-- The sort the getMessages query performs for direction before:
descending createdAt. -/
def sortByCreatedDesc : List Msg → List Msg
  | [] => []
  | m :: ms => insertDesc m (sortByCreatedDesc ms)

/-- Insert into a list kept in ascending createdAt order. -/
def insertAsc (m : Msg) : List Msg → List Msg
  | [] => [m]
  | x :: xs =>
    if m.createdAt ≤ x.createdAt then m :: x :: xs else x :: insertAsc m xs

/-- The sort the getMessages query performs for direction after:
ascending createdAt. -/
def sortByCreatedAsc : List Msg → List Msg
  | [] => []
  | m :: ms => insertAsc m (sortByCreatedAsc ms)

/-- The response mapping getMessages applies to each fetched document: a sent
message is always reported as read; the isRead and readAt of a received
message are taken from the document as fetched, before the read-marking
update of this same call. -/
def msgToView (userId : String) (m : Msg) : MsgView :=
  { id := m.id, senderId := m.senderId, receiverId := m.receiverId,
    content := m.content, hasFile := m.hasFile, fileKey := m.fileKey,
    fileUrl := m.fileUrl, fileName := m.fileName, fileType := m.fileType,
    fileSize := m.fileSize, isFileUploaded := m.isFileUploaded,
    isRead := if m.receiverId == userId then m.isRead else true,
    readAt := m.readAt, createdAt := m.createdAt }

/-- The getMessages response envelope. -/
structure GetMessagesResult where
  messages : List MsgView
  nextCursor : Option Nat
  hasMore : Bool
  direction : Direction
deriving DecidableEq

/-- The cursor condition of the getMessages query: strictly older than the
resolved timestamp for before, strictly newer for after, no condition
without a cursor. -/
def boundPred (bound : Option Nat) (direction : Direction) (m : Msg) : Bool :=
  match bound with
  | none => true
  | some t =>
    match direction with
    | .before => decide (m.createdAt < t)
    | .after => decide (t < m.createdAt)

/-- The page a getMessages query fetches: messages of the pair matching the
cursor condition, sorted by createdAt (descending for before, ascending for
after), limit + 1 fetched. -/
def fetchedPage (store : MsgStore) (userId otherUserId : String)
    (bound : Option Nat) (limit : Nat) (direction : Direction) : List Msg :=
  (match direction with
   | .before => sortByCreatedDesc (store.msgs.filter (fun m =>
       pairPred userId otherUserId m && boundPred bound direction m))
   | .after => sortByCreatedAsc (store.msgs.filter (fun m =>
       pairPred userId otherUserId m && boundPred bound direction m))).take
    (limit + 1)

/-- The messages a getMessages call returns, in response order: the fetched
rows capped to limit, reversed into chronological order for before. -/
def pageMsgs (store : MsgStore) (userId otherUserId : String)
    (bound : Option Nat) (limit : Nat) (direction : Direction) : List Msg :=
  match direction with
  | .before => ((fetchedPage store userId otherUserId bound limit
      direction).take limit).reverse
  | .after => (fetchedPage store userId otherUserId bound limit
      direction).take limit

/-- The ids of the returned messages the read-marking update targets: those
received by the caller and not yet read. -/
def unreadIdsOf (store : MsgStore) (userId otherUserId : String)
    (bound : Option Nat) (limit : Nat) (direction : Direction) : List Nat :=
  ((pageMsgs store userId otherUserId bound limit direction).filter (fun m =>
    m.receiverId == userId && !m.isRead)).map (·.id)

/-- The read-marking update applied to each stored document: targeted ids
get isRead true and readAt now. -/
def markRead (ids : List Nat) (now : Nat) (m : Msg) : Msg :=
  if ids.contains m.id then { m with isRead := true, readAt := some now }
  else m

/-- getMessagesCore continued: mark the returned messages received by the
caller as read at time `now`, apply the response mapping and compute the
boundary cursor and hasMore. -/
def getMessagesCore (store : MsgStore) (userId otherUserId : String)
    (bound : Option Nat) (limit : Nat) (direction : Direction) (now : Nat) :
    MsgStore × GetMessagesResult :=
  ({ store with msgs := (store.msgs.map
       (markRead (unreadIdsOf store userId otherUserId bound limit direction)
         now)) },
   { messages := (pageMsgs store userId otherUserId bound limit
       direction).map (msgToView userId),
     nextCursor := match direction with
       | .before => ((pageMsgs store userId otherUserId bound limit
           direction).map (msgToView userId)).head?.map (·.id)
       | .after => ((pageMsgs store userId otherUserId bound limit
           direction).map (msgToView userId)).getLast?.map (·.id),
     hasMore := decide (limit <
       (fetchedPage store userId otherUserId bound limit direction).length),
     direction := direction })

/-- getMessages from message.service.ts. Validates ids and limit, gates on
areConnected, resolves the cursor by id over the whole collection and
compares by its createdAt (strictly), fetches limit + 1 rows sorted by
createdAt (descending for before, ascending for after), reverses the page
for before, marks the returned messages received by the caller as read at
time `now`, and answers with the response mapping, the boundary cursor and
hasMore. Returns the updated store alongside the response. -/
def getMessages (conns : ConnStore) (store : MsgStore)
    (userId otherUserId : String) (cursor : Option Nat) (limit : Nat)
    (direction : Direction) (now : Nat) :
    Except DomErr (MsgStore × GetMessagesResult) :=
  if !isValidObjectId userId || !isValidObjectId otherUserId then
    .error (.badRequest "Invalid userId")
  else if limit < 1 || limit > 100 then
    .error (.badRequest "Limit must be between 1 and 100")
  else if !areConnected conns userId otherUserId then
    .error (.badRequest "Users must be connected to view messages")
  else
    match cursor with
    | none => .ok (getMessagesCore store userId otherUserId none limit direction now)
    | some c =>
      match store.msgs.find? (fun m => m.id == c) with
      | none => .error (.badRequest "Cursor message not found")
      | some cm =>
        .ok (getMessagesCore store userId otherUserId (some cm.createdAt) limit
          direction now)

/-- A client following direction before pagination: first call with no
cursor, then repeatedly pass the returned nextCursor while hasMore is true,
threading the store returned by each call (the read-marking side effect).
Collects the pages in order. -/
def paginateBefore (conns : ConnStore) (store : MsgStore)
    (userId otherUserId : String) (limit : Nat) (cursor : Option Nat)
    (now : Nat) : Nat → List (List MsgView)
  | 0 => []
  | fuel + 1 =>
    match getMessages conns store userId otherUserId cursor limit .before now with
    | .error _ => []
    | .ok (store', res) =>
      if res.hasMore then
        res.messages ::
          paginateBefore conns store' userId otherUserId limit res.nextCursor
            now fuel
      else
        [res.messages]

/-- All pages of the direction before pagination, with enough fuel for the
whole collection. -/
def paginateBeforeAll (conns : ConnStore) (store : MsgStore)
    (userId otherUserId : String) (limit : Nat) (now : Nat) :
    List (List MsgView) :=
  paginateBefore conns store userId otherUserId limit none now
    (store.msgs.length + 1)

/-- An AlbumFavorite document: a user favorited an album. -/
structure Favorite where
  userId : String
  albumId : Nat
deriving DecidableEq

/-- An Album document, restricted to the fields the trail-connection service
reads: owner, display fields and the soft-delete flag. -/
structure Album where
  id : Nat
  userId : String
  title : String
  coverImage : Option String
  isDeleted : Bool
deriving DecidableEq

/-- A Media document, restricted to the fields the trail-connection service
reads: owning album and the soft-delete flag. -/
structure Media where
  id : Nat
  albumId : Nat
  isDeleted : Bool
deriving DecidableEq

/-- A MediaReflection document (src/models/media-reflection.schema.ts):
author and media. The schema carries no anonymity flag; the denormalized
display fields (reflection type, label, emoji) are never read by the
trail-connection service and are omitted. -/
structure MediaReflection where
  id : Nat
  mediaId : Nat
  userId : String
deriving DecidableEq

/-- The collections the eligibility engine reads. -/
structure World where
  favorites : List Favorite
  albums : List Album
  media : List Media
  reflections : List MediaReflection
deriving DecidableEq

/-- The album summary embedded in an eligibility answer. -/
structure AlbumInfo where
  id : Nat
  title : String
  coverImage : Option String
deriving DecidableEq

/-- The checkConnectionEligibility answer. -/
structure Eligibility where
  eligible : Bool
  mutualAlbums : List AlbumInfo
  reflectionCount : Nat
  reasons : List String
deriving DecidableEq

/-- getMediaReflectionsByUser from trail-connection.service.ts: all albums
owned by the target user (with no deleted-album filter), all non-deleted
media in those albums, then every reflection by the user on any of that
media. Invalid ids yield the empty list. -/
def getMediaReflectionsByUser (w : World) (userId targetUserId : String) :
    List MediaReflection :=
  if !isValidObjectId userId || !isValidObjectId targetUserId then
    []
  else
    let targetAlbumIds :=
      (w.albums.filter (fun a => a.userId == targetUserId)).map (·.id)
    if targetAlbumIds.isEmpty then
      []
    else
      let targetMediaIds :=
        (w.media.filter (fun m =>
          targetAlbumIds.contains m.albumId && !m.isDeleted)).map (·.id)
      if targetMediaIds.isEmpty then
        []
      else
        w.reflections.filter (fun r =>
          r.userId == userId && targetMediaIds.contains r.mediaId)

/-- The album ids a user has favorited. -/
def favAlbumIds (w : World) (u : String) : List Nat :=
  (w.favorites.filter (fun f => f.userId == u)).map (·.albumId)

/-- The second favorites query of checkConnectionEligibility: albums
favorited by u2 that are also favorited by u1. -/
def mutualFavAlbumIds (w : World) (u1 u2 : String) : List Nat :=
  (w.favorites.filter (fun f =>
    f.userId == u2 && (favAlbumIds w u1).contains f.albumId)).map (·.albumId)

/-- The album lookup of checkConnectionEligibility: the non-deleted albums
among the mutual favorites. -/
def mutualAlbumDocs (w : World) (u1 u2 : String) : List Album :=
  w.albums.filter (fun a =>
    (mutualFavAlbumIds w u1 u2).contains a.id && !a.isDeleted)

/-- The album summary projection of checkConnectionEligibility. -/
def albumInfos (l : List Album) : List AlbumInfo :=
  l.map (fun a => { id := a.id, title := a.title, coverImage := a.coverImage })

/-- checkConnectionEligibility from trail-connection.service.ts: mutual
favorites must exist, must include an album owned by each user, and both
users must have reflected on media of the other. -/
def checkConnectionEligibility (w : World) (userId1 userId2 : String) :
    Except DomErr Eligibility :=
  if !isValidObjectId userId1 || !isValidObjectId userId2 then
    .error (.badRequest "Invalid userId")
  else if userId1 == userId2 then
    .ok { eligible := false, mutualAlbums := [], reflectionCount := 0,
          reasons := ["Cannot connect with yourself"] }
  else if (favAlbumIds w userId1).isEmpty then
    .ok { eligible := false, mutualAlbums := [], reflectionCount := 0,
          reasons := ["No mutual album favorites"] }
  else if (mutualFavAlbumIds w userId1 userId2).isEmpty then
    .ok { eligible := false, mutualAlbums := [], reflectionCount := 0,
          reasons := ["No mutual album favorites"] }
  else if ((mutualAlbumDocs w userId1 userId2).filter
        (fun a => a.userId == userId1)).isEmpty ||
      ((mutualAlbumDocs w userId1 userId2).filter
        (fun a => a.userId == userId2)).isEmpty then
    .ok { eligible := false,
          mutualAlbums := albumInfos (mutualAlbumDocs w userId1 userId2),
          reflectionCount := 0,
          reasons := ["No mutual album favorites (both directions required)"] }
  else if (getMediaReflectionsByUser w userId1 userId2).isEmpty ||
      (getMediaReflectionsByUser w userId2 userId1).isEmpty then
    .ok { eligible := false,
          mutualAlbums := albumInfos (mutualAlbumDocs w userId1 userId2),
          reflectionCount := (getMediaReflectionsByUser w userId1 userId2).length +
            (getMediaReflectionsByUser w userId2 userId1).length,
          reasons :=
            ["No bidirectional reflections found (both users must reflect on each other\x27s media)"] }
  else
    .ok { eligible := true,
          mutualAlbums := albumInfos (mutualAlbumDocs w userId1 userId2),
          reflectionCount := (getMediaReflectionsByUser w userId1 userId2).length +
            (getMediaReflectionsByUser w userId2 userId1).length,
          reasons := [] }

/-- A TrailConnection document (src/models/trail-connection.schema.ts). -/
structure TrailConn where
  id : Nat
  userA : String
  userB : String
  mutualAlbumIds : List Nat
  reflectionCount : Nat
  isActive : Bool
deriving DecidableEq

/-- The TrailConnection collection plus the id counter. -/
structure TrailStore where
  conns : List TrailConn
  nextId : Nat
deriving DecidableEq

/-- normalizeUserIds from trail-connection.service.ts: order the pair by
string comparison of the canonical ids. -/
def normalizeUserIds (userId1 userId2 : String) : String × String :=
  if userId1 < userId2 then (userId1, userId2) else (userId2, userId1)

/-- createConnection from trail-connection.service.ts: validate, refuse
self pairs, require eligibility, then either answer that the normalized
pair's document already exists (reactivating it and refreshing its fields
when inactive) or insert a fresh active document for the normalized pair. -/
def createConnection (w : World) (ts : TrailStore) (userId1 userId2 : String) :
    Except DomErr (TrailStore × String) :=
  if !isValidObjectId userId1 || !isValidObjectId userId2 then
    .error (.badRequest "Invalid userId")
  else if userId1 == userId2 then
    .error (.badRequest "Cannot connect with yourself")
  else
    match checkConnectionEligibility w userId1 userId2 with
    | .error e => .error e
    | .ok elig =>
      if !elig.eligible then
        .error (.badRequest
          ("Connection not eligible: " ++ String.intercalate ", " elig.reasons))
      else
        match ts.conns.find? (fun c =>
            c.userA == (normalizeUserIds userId1 userId2).1 &&
            c.userB == (normalizeUserIds userId1 userId2).2) with
        | some existing =>
          if existing.isActive then
            .ok (ts, "Already connected")
          else
            .ok ({ ts with conns := ts.conns.map (fun c =>
                     if c.id == existing.id then
                       { c with isActive := true,
                                mutualAlbumIds := elig.mutualAlbums.map (·.id),
                                reflectionCount := elig.reflectionCount }
                     else c) },
                 "Connection reactivated")
        | none =>
          .ok ({ conns := ts.conns ++
                   [{ id := ts.nextId,
                      userA := (normalizeUserIds userId1 userId2).1,
                      userB := (normalizeUserIds userId1 userId2).2,
                      mutualAlbumIds := elig.mutualAlbums.map (·.id),
                      reflectionCount := elig.reflectionCount,
                      isActive := true }],
                 nextId := ts.nextId + 1 },
               "Connection created")

/-- updateConnectionEligibility from trail-connection.service.ts: refresh the
fields of the normalized pair's active document from a fresh eligibility
answer and deactivate it when no longer eligible; never inserts. -/
def updateConnectionEligibility (w : World) (ts : TrailStore)
    (userId1 userId2 : String) : TrailStore :=
  match ts.conns.find? (fun c =>
      c.userA == (normalizeUserIds userId1 userId2).1 &&
      c.userB == (normalizeUserIds userId1 userId2).2 &&
      c.isActive) with
  | none => ts
  | some existing =>
    match checkConnectionEligibility w userId1 userId2 with
    | .error _ => ts
    | .ok elig =>
      { ts with conns := ts.conns.map (fun c =>
          if c.id == existing.id then
            { c with mutualAlbumIds := elig.mutualAlbums.map (·.id),
                     reflectionCount := elig.reflectionCount,
                     isActive := if elig.eligible then c.isActive else false }
          else c) }

/-- A queue delivery: raw payload plus the x-retry-count header, which
defaults to 0 when absent. -/
structure QMsg where
  payload : String
  retryCount : Nat
deriving DecidableEq

/-- The origin queue and its paired dead-letter queue. -/
structure QueueState where
  queue : List QMsg
  dlq : List String
deriving DecidableEq

/-- maxRetries of both consumers. -/
def maxRetries : Nat := 3

/-- One delivery handled by a consumer, as implemented identically in
notification.consumer.ts and file-upload.consumer.ts: on success ack; on
failure republish the same payload to the origin queue with the retry count
incremented when the count read from the header is below maxRetries, else
publish the raw payload to the dead-letter queue; in both failure branches
ack the original. Whether processing fails is an input, standing for the
external collaborators. -/
def consumeStep (st : QueueState) (fails : Bool) : QueueState :=
  match st.queue with
  | [] => st
  | m :: rest =>
    if !fails then
      { st with queue := rest }
    else if m.retryCount < maxRetries then
      { st with queue := rest ++ [{ payload := m.payload,
                                    retryCount := m.retryCount + 1 }] }
    else
      { queue := rest, dlq := st.dlq ++ [m.payload] }

/-- A run of consumer deliveries driven by a list of failure outcomes. -/
def consumeRun (st : QueueState) : List Bool → QueueState
  | [] => st
  | f :: fs => consumeRun (consumeStep st f) fs

/-- A valid canonical user id used by concrete scenarios. -/
def userA_id : String := "aaaaaaaaaaaaaaaaaaaaaaaa"

/-- A second valid canonical user id, larger than userA_id. -/
def userB_id : String := "bbbbbbbbbbbbbbbbbbbbbbbb"

/-- The store after the first racing insert: one pending request A to B. -/
def raceStore1 : ConnStore :=
  { reqs := [{ id := 0, requesterId := userA_id, recipientId := userB_id,
               status := .pending }],
    nextId := 1 }

/-- The store after the second racing insert: pending requests in both
directions for the same unordered pair. -/
def raceStore2 : ConnStore :=
  { reqs := [{ id := 0, requesterId := userA_id, recipientId := userB_id,
               status := .pending },
             { id := 1, requesterId := userB_id, recipientId := userA_id,
               status := .pending }],
    nextId := 2 }

/-- A store holding one pending request from userB to userA. -/
def pendingStore : ConnStore :=
  { reqs := [{ id := 0, requesterId := userB_id, recipientId := userA_id,
               status := .pending }],
    nextId := 1 }

/-- The reflection set as the claim words it, for comparison with the
source: reflections authored by the user on non-deleted media belonging to
non-deleted albums owned by the target user. -/
def claimedReflectionSet (w : World) (userId targetUserId : String) :
    List MediaReflection :=
  w.reflections.filter (fun r =>
    r.userId == userId &&
    w.media.any (fun m => m.id == r.mediaId && !m.isDeleted &&
      w.albums.any (fun a => a.id == m.albumId && a.userId == targetUserId &&
        !a.isDeleted)))

/-- A world where user B owns a single soft-deleted album holding one
non-deleted media item on which user A reflected. -/
def deletedAlbumWorld : World :=
  { favorites := [],
    albums := [{ id := 0, userId := userB_id, title := "trail",
                 coverImage := none, isDeleted := true }],
    media := [{ id := 0, albumId := 0, isDeleted := false }],
    reflections := [{ id := 0, mediaId := 0, userId := userA_id }] }

/-- The trail-connection store observed after a createConnection call:
unchanged when the call fails. -/
def createConnectionStore (w : World) (ts : TrailStore) (userId1 userId2 : String) :
    TrailStore :=
  match createConnection w ts userId1 userId2 with
  | .ok (ts', _) => ts'
  | .error _ => ts

/-- A world where userA and userB are eligible: each favorited both albums,
each owns one album holding one media item, and each reflected on the
other's media. -/
def eligibleWorld : World :=
  { favorites := [{ userId := userA_id, albumId := 0 },
                  { userId := userB_id, albumId := 0 },
                  { userId := userA_id, albumId := 1 },
                  { userId := userB_id, albumId := 1 }],
    albums := [{ id := 0, userId := userA_id, title := "a", coverImage := none,
                 isDeleted := false },
               { id := 1, userId := userB_id, title := "b", coverImage := none,
                 isDeleted := false }],
    media := [{ id := 0, albumId := 0, isDeleted := false },
              { id := 1, albumId := 1, isDeleted := false }],
    reflections := [{ id := 0, mediaId := 1, userId := userA_id },
                    { id := 1, mediaId := 0, userId := userB_id }] }

/-- A store where userA and userB are connected. -/
def connsW : ConnStore :=
  { reqs := [{ id := 0, requesterId := userA_id, recipientId := userB_id,
               status := .accepted }],
    nextId := 1 }

/-- A message store with one unread message from userB to userA. -/
def storeW : MsgStore :=
  { msgs := [{ id := 0, senderId := userB_id, receiverId := userA_id,
               content := "hi", hasFile := false, fileKey := none,
               fileUrl := none, fileName := none, fileType := none,
               fileSize := none, isFileUploaded := false, isRead := false,
               readAt := none, createdAt := 5 }],
    nextId := 1 }

/-- storeW after userA fetches the conversation at time 9. -/
def storeW' : MsgStore :=
  { msgs := [{ id := 0, senderId := userB_id, receiverId := userA_id,
               content := "hi", hasFile := false, fileKey := none,
               fileUrl := none, fileName := none, fileType := none,
               fileSize := none, isFileUploaded := false, isRead := true,
               readAt := some 9, createdAt := 5 }],
    nextId := 1 }

/-- The response of that fetch: isRead still reports the pre-call value. -/
def resW : GetMessagesResult :=
  { messages := [{ id := 0, senderId := userB_id, receiverId := userA_id,
                   content := "hi", hasFile := false, fileKey := none,
                   fileUrl := none, fileName := none, fileType := none,
                   fileSize := none, isFileUploaded := false, isRead := false,
                   readAt := none, createdAt := 5 }],
    nextCursor := some 0, hasMore := false, direction := .before }

/-- The query projection of a message: its id and createdAt. -/
def pj (m : Msg) : Nat × Nat := (m.id, m.createdAt)

/-- The query projection of a returned message view. -/
def pv (v : MsgView) : Nat × Nat := (v.id, v.createdAt)

/-- The cursor condition at the projection level for direction before. -/
def boundPredP (bound : Option Nat) (x : Nat × Nat) : Bool :=
  match bound with
  | none => true
  | some t => decide (x.2 < t)

/-- The direction before query at the projection level: the descending pair
log filtered by the cursor condition. -/
def projPage (store : MsgStore) (u o : String) (bound : Option Nat) :
    List (Nat × Nat) :=
  ((sortByCreatedDesc (store.msgs.filter (pairPred u o))).map pj).filter
    (boundPredP bound)

/-- Two pair messages sharing a createdAt: the tie the before pagination
cursor cannot see past. -/
def storeTies : MsgStore :=
  { msgs := [{ id := 0, senderId := userB_id, receiverId := userA_id,
               content := "m0", hasFile := false, fileKey := none,
               fileUrl := none, fileName := none, fileType := none,
               fileSize := none, isFileUploaded := false, isRead := true,
               readAt := none, createdAt := 5 },
             { id := 1, senderId := userA_id, receiverId := userB_id,
               content := "m1", hasFile := false, fileKey := none,
               fileUrl := none, fileName := none, fileType := none,
               fileSize := none, isFileUploaded := false, isRead := true,
               readAt := none, createdAt := 5 }],
    nextId := 2 }

/-- Two pair messages with distinct createdAt values, needing two pages at
page size 1. -/
def storeY : MsgStore :=
  { msgs := [{ id := 0, senderId := userB_id, receiverId := userA_id,
               content := "m0", hasFile := false, fileKey := none,
               fileUrl := none, fileName := none, fileType := none,
               fileSize := none, isFileUploaded := false, isRead := true,
               readAt := none, createdAt := 1 },
             { id := 1, senderId := userA_id, receiverId := userB_id,
               content := "m1", hasFile := false, fileKey := none,
               fileUrl := none, fileName := none, fileType := none,
               fileSize := none, isFileUploaded := false, isRead := true,
               readAt := none, createdAt := 2 }],
    nextId := 2 }

/-- C1. Two concurrent sendRequest calls for the opposite directions of one
pair, both of whose application-level checks read the empty collection
before either insert lands, are both admitted by the schema's partial unique
index on (requesterId, recipientId, status is pending), because that index is
direction-sensitive. The resulting state holds two pending requests for the
unordered pair, so the storage-level constraint alone does not enforce the
claimed invariant. -/
theorem sendRequest_race_two_pendings :
    sendRequestChecksPass [] userA_id userB_id = true ∧
    sendRequestChecksPass [] userB_id userA_id = true ∧
    insertPendingUnderIndex { reqs := [], nextId := 0 } userA_id userB_id =
      some raceStore1 ∧
    insertPendingUnderIndex raceStore1 userB_id userA_id = some raceStore2 ∧
    countPendingPair raceStore2.reqs userA_id userB_id = 2 := by
  decide

/-- C3 counterexample. A queue message whose processing fails exactly three
times (the x-retry-count header reading 0, 1 and 2 on those deliveries) is
republished to the origin queue with the header at 3: it is attempted a
fourth time there, and the dead-letter queue is still empty at that point. -/
theorem consumer_three_failures_still_on_origin :
    (consumeRun { queue := [{ payload := "payload", retryCount := 0 }],
                  dlq := [] } [true, true, true]).queue =
      [{ payload := "payload", retryCount := 3 }] ∧
    (consumeRun { queue := [{ payload := "payload", retryCount := 0 }],
                  dlq := [] } [true, true, true]).dlq = [] := by
  decide

/-- C3 amended. A queue message whose processing fails four times (the
initial delivery plus the three republished retries) is acknowledged away
from the origin queue, never attempted a fifth time there, and its raw
payload is observed exactly once on the paired dead-letter queue,
byte-for-byte unmodified. Both consumers run this same protocol. -/
theorem consumer_retry_bound (p : String) :
    consumeRun { queue := [{ payload := p, retryCount := 0 }], dlq := [] }
        [true, true, true, true] =
      { queue := [], dlq := [p] } := by
  rfl

/-- Boolean equality of strings is symmetric. -/
theorem string_beq_symm (a b : String) : (a == b) = (b == a) := by
  rcases eq_or_ne a b with h | h
  · subst h; rfl
  · rw [beq_eq_false_iff_ne.mpr h, beq_eq_false_iff_ne.mpr h.symm]

/-- areConnected only answers true on valid ids. -/
theorem areConnected_valid {s : ConnStore} {a b : String}
    (h : areConnected s a b = true) :
    isValidObjectId a = true ∧ isValidObjectId b = true := by
  unfold areConnected at h
  rcases hva : isValidObjectId a with _ | _ <;>
    rcases hvb : isValidObjectId b with _ | _ <;>
      simp [hva, hvb] at h <;> exact ⟨rfl, rfl⟩

/-- C2. For valid distinct users, sendMessage fails with the
users-must-be-connected error (the Precondition gate of the spec) exactly
when areConnected is false at call time, and in that case the message store
is left unchanged: no Message document is persisted. -/
theorem sendMessage_precondition_iff (conns : ConnStore) (store : MsgStore)
    (a b content : String) (fd : Option FileData) (now : Nat)
    (ha : isValidObjectId a = true) (hb : isValidObjectId b = true)
    (hne : a ≠ b) :
    (sendMessage conns store a b content fd now =
        .error (.badRequest "Users must be connected to send messages") ↔
      areConnected conns a b = false) ∧
    (areConnected conns a b = false →
      sendMessageStore conns store a b content fd now = store) := by
  have hbeq : (a == b) = false := beq_eq_false_iff_ne.mpr hne
  rcases hc : areConnected conns a b with _ | _
  · constructor
    · unfold sendMessage
      simp [ha, hb, hbeq, hc]
    · intro _
      unfold sendMessageStore sendMessage
      simp [ha, hb, hbeq, hc]
  · constructor
    · unfold sendMessage
      simp [ha, hb, hbeq, hc]
    · intro h
      cases h

/-- C2 witness: for two valid users with no accepted request, sendMessage
fails with the connection-precondition error and persists nothing. -/
theorem sendMessage_precondition_iff_witness :
    (sendMessage { reqs := [], nextId := 0 } { msgs := [], nextId := 0 }
        userA_id userB_id "hi" none 3 =
        .error (.badRequest "Users must be connected to send messages") ↔
      areConnected { reqs := [], nextId := 0 } userA_id userB_id = false) ∧
    (areConnected { reqs := [], nextId := 0 } userA_id userB_id = false →
      sendMessageStore { reqs := [], nextId := 0 } { msgs := [], nextId := 0 }
          userA_id userB_id "hi" none 3 =
        { msgs := [], nextId := 0 }) :=
  sendMessage_precondition_iff _ _ _ _ _ _ _ (by decide) (by decide) (by decide)

/-- Evaluation of acceptRequest once the caller id is known to be valid. -/
theorem acceptRequest_eval (s : ConnStore) (u : String) (rid : Nat)
    (hu : isValidObjectId u = true) :
    acceptRequest s u rid =
      match s.reqs.find? (fun r => r.id == rid) with
      | none => .error (.notFound "Request not found")
      | some r =>
        if r.recipientId != u then
          .error (.badRequest "You are not the recipient of this request")
        else if r.status != .pending then
          .error (.badRequest ("Request is already " ++ statusText r.status))
        else
          .ok { s with reqs := s.reqs.map (fun q =>
                  if q.id == rid then { q with status := .accepted } else q) } := by
  unfold acceptRequest
  rw [hu]
  rfl

/-- Evaluation of rejectRequest once the caller id is known to be valid. -/
theorem rejectRequest_eval (s : ConnStore) (u : String) (rid : Nat)
    (hu : isValidObjectId u = true) :
    rejectRequest s u rid =
      match s.reqs.find? (fun r => r.id == rid) with
      | none => .error (.notFound "Request not found")
      | some r =>
        if r.recipientId != u then
          .error (.badRequest "You are not the recipient of this request")
        else if r.status != .pending then
          .error (.badRequest ("Request is already " ++ statusText r.status))
        else
          .ok { s with reqs := s.reqs.map (fun q =>
                  if q.id == rid then { q with status := .rejected } else q) } := by
  unfold rejectRequest
  rw [hu]
  rfl

/-- Looking up a request by id after the status-update map rewrites the
status of the found document and nothing else. -/
theorem find?_update_status (l : List ConnReq) (rid : Nat) (st : ReqStatus) :
    (l.map (fun q => if q.id == rid then { q with status := st } else q)).find?
        (fun q => q.id == rid) =
      (l.find? (fun q => q.id == rid)).map (fun q => { q with status := st }) := by
  induction l with
  | nil => rfl
  | cons a t ih =>
    rw [List.map_cons]
    by_cases h : a.id = rid
    · have hb : (a.id == rid) = true := beq_iff_eq.mpr h
      rw [if_pos hb]
      rw [@List.find?_cons_of_pos _ (fun q => q.id == rid)
          ({ a with status := st } : ConnReq) _ hb]
      rw [@List.find?_cons_of_pos _ (fun q => q.id == rid) a _ hb]
      rfl
    · have hb : (a.id == rid) = false := beq_eq_false_iff_ne.mpr h
      have hnb : ¬ ((a.id == rid) = true) := by simp [hb]
      rw [if_neg hnb]
      rw [@List.find?_cons_of_neg _ (fun q => q.id == rid) a _ hnb]
      rw [@List.find?_cons_of_neg _ (fun q => q.id == rid) a _ hnb]
      exact ih

/-- Membership survives the status-update map for documents with another id. -/
theorem mem_update_status {l : List ConnReq} {q : ConnReq} (rid : Nat)
    (st : ReqStatus) (hq : q ∈ l) (hne : q.id ≠ rid) :
    q ∈ l.map (fun q => if q.id == rid then { q with status := st } else q) := by
  have hb : (q.id == rid) = false := beq_eq_false_iff_ne.mpr hne
  have hmem := List.mem_map_of_mem
    (fun q : ConnReq => if q.id == rid then { q with status := st } else q) hq
  simpa [hb] using hmem

/-- C8. A respond call (acceptRequest or rejectRequest) fails with the
not-found error when the request id resolves to no document, fails with the
not-the-recipient error when the caller is not the recipient, fails with the
already-decided conflict error when the status is not pending (so
re-applying a decision is rejected, never silently accepted), and on success
rewrites the status of exactly that document from pending to the decided
value; re-running the same decision afterwards fails with the conflict
error. -/
theorem respond_decision_protocol (s : ConnStore) (u : String) (rid : Nat)
    (hu : isValidObjectId u = true) :
    (s.reqs.find? (fun r => r.id == rid) = none →
      acceptRequest s u rid = .error (.notFound "Request not found") ∧
      rejectRequest s u rid = .error (.notFound "Request not found")) ∧
    (∀ r, s.reqs.find? (fun r => r.id == rid) = some r →
      (r.recipientId ≠ u →
        acceptRequest s u rid =
          .error (.badRequest "You are not the recipient of this request") ∧
        rejectRequest s u rid =
          .error (.badRequest "You are not the recipient of this request")) ∧
      (r.recipientId = u → r.status ≠ .pending →
        acceptRequest s u rid =
          .error (.badRequest ("Request is already " ++ statusText r.status)) ∧
        rejectRequest s u rid =
          .error (.badRequest ("Request is already " ++ statusText r.status))) ∧
      (r.recipientId = u → r.status = .pending →
        (∃ s', acceptRequest s u rid = .ok s' ∧
          s'.reqs.find? (fun q => q.id == rid) =
            some { r with status := .accepted } ∧
          (∀ q ∈ s.reqs, q.id ≠ rid → q ∈ s'.reqs) ∧
          acceptRequest s' u rid =
            .error (.badRequest "Request is already accepted")) ∧
        (∃ s', rejectRequest s u rid = .ok s' ∧
          s'.reqs.find? (fun q => q.id == rid) =
            some { r with status := .rejected } ∧
          (∀ q ∈ s.reqs, q.id ≠ rid → q ∈ s'.reqs) ∧
          rejectRequest s' u rid =
            .error (.badRequest "Request is already rejected")))) := by
  refine ⟨fun hnone => ⟨?_, ?_⟩, fun r hr => ⟨fun hrec => ⟨?_, ?_⟩,
    fun hrec hst => ⟨?_, ?_⟩, fun hrec hst => ⟨?_, ?_⟩⟩⟩
  · rw [acceptRequest_eval s u rid hu, hnone]
  · rw [rejectRequest_eval s u rid hu, hnone]
  · rw [acceptRequest_eval s u rid hu, hr]
    have hb : (r.recipientId == u) = false := beq_eq_false_iff_ne.mpr hrec
    simp [bne, hb]
  · rw [rejectRequest_eval s u rid hu, hr]
    have hb : (r.recipientId == u) = false := beq_eq_false_iff_ne.mpr hrec
    simp [bne, hb]
  · rw [acceptRequest_eval s u rid hu, hr]
    have hb : (r.recipientId != u) = false := by
      simp [bne, beq_iff_eq.mpr hrec]
    have hsb : (r.status != ReqStatus.pending) = true := by
      cases hs : r.status
      · exact absurd hs hst
      · rfl
      · rfl
    simp [hb, hsb]
  · rw [rejectRequest_eval s u rid hu, hr]
    have hb : (r.recipientId != u) = false := by
      simp [bne, beq_iff_eq.mpr hrec]
    have hsb : (r.status != ReqStatus.pending) = true := by
      cases hs : r.status
      · exact absurd hs hst
      · rfl
      · rfl
    simp [hb, hsb]
  · have hb : (r.recipientId != u) = false := by
      simp [bne, beq_iff_eq.mpr hrec]
    have hsb : (r.status != ReqStatus.pending) = false := by
      rw [hst]; rfl
    refine ⟨{ s with reqs := s.reqs.map (fun q =>
        if q.id == rid then { q with status := .accepted } else q) }, ?_, ?_, ?_, ?_⟩
    · rw [acceptRequest_eval s u rid hu, hr]
      simp [hb, hsb]
    · rw [find?_update_status, hr]
      rfl
    · intro q hq hqne
      exact mem_update_status rid .accepted hq hqne
    · rw [acceptRequest_eval _ u rid hu]
      have hf2 : (s.reqs.map (fun q =>
          if q.id == rid then { q with status := ReqStatus.accepted } else q)).find?
            (fun q => q.id == rid) =
          some { r with status := ReqStatus.accepted } := by
        rw [find?_update_status, hr]
        rfl
      rw [hf2]
      have hb2 : (({ r with status := ReqStatus.accepted } : ConnReq).recipientId
          != u) = false := by
        simp [bne, beq_iff_eq.mpr hrec]
      simp [hb2, statusText]
      decide
  · have hb : (r.recipientId != u) = false := by
      simp [bne, beq_iff_eq.mpr hrec]
    have hsb : (r.status != ReqStatus.pending) = false := by
      rw [hst]; rfl
    refine ⟨{ s with reqs := s.reqs.map (fun q =>
        if q.id == rid then { q with status := .rejected } else q) }, ?_, ?_, ?_, ?_⟩
    · rw [rejectRequest_eval s u rid hu, hr]
      simp [hb, hsb]
    · rw [find?_update_status, hr]
      rfl
    · intro q hq hqne
      exact mem_update_status rid .rejected hq hqne
    · rw [rejectRequest_eval _ u rid hu]
      have hf2 : (s.reqs.map (fun q =>
          if q.id == rid then { q with status := ReqStatus.rejected } else q)).find?
            (fun q => q.id == rid) =
          some { r with status := ReqStatus.rejected } := by
        rw [find?_update_status, hr]
        rfl
      rw [hf2]
      have hb2 : (({ r with status := ReqStatus.rejected } : ConnReq).recipientId
          != u) = false := by
        simp [bne, beq_iff_eq.mpr hrec]
      simp [hb2, statusText]
      decide

/-- C8 witness: accepting the concrete pending request mutates its status to
accepted once, and accepting it again fails with the conflict error. -/
theorem respond_decision_protocol_witness :
    ∃ s', acceptRequest pendingStore userA_id 0 = .ok s' ∧
      s'.reqs.find? (fun q => q.id == 0) =
        some { id := 0, requesterId := userB_id, recipientId := userA_id,
               status := .accepted } ∧
      (∀ q ∈ pendingStore.reqs, q.id ≠ 0 → q ∈ s'.reqs) ∧
      acceptRequest s' userA_id 0 =
        .error (.badRequest "Request is already accepted") :=
  (((respond_decision_protocol pendingStore userA_id 0 (by decide)).2
      { id := 0, requesterId := userB_id, recipientId := userA_id,
        status := .pending } (by decide)).2.2 (by decide) (by decide)).1

/-- C4 counterexample. The reflection set computed inside
checkConnectionEligibility counts A's reflection on media of B's deleted
album: the album query of getMediaReflectionsByUser has no deleted-album
filter, so the set differs from the claimed one, which excludes deleted
albums. -/
theorem reflection_set_deleted_album_counterexample :
    getMediaReflectionsByUser deletedAlbumWorld userA_id userB_id =
      [{ id := 0, mediaId := 0, userId := userA_id }] ∧
    claimedReflectionSet deletedAlbumWorld userA_id userB_id = [] := by
  decide

/-- C4 amended. For valid ids, the reflection set computed inside
checkConnectionEligibility contains exactly the reflections authored by the
user on non-deleted media belonging to ANY album owned by the target user,
deleted albums included. Membership depends only on the reflection's author
and media ids; the MediaReflection documents the engine reads carry no
anonymity flag and no other field is consulted, so anonymity can never
affect eligibility. -/
theorem getMediaReflectionsByUser_members (w : World) (a b : String)
    (r : MediaReflection) :
    r ∈ getMediaReflectionsByUser w a b ↔
      isValidObjectId a = true ∧ isValidObjectId b = true ∧
      r ∈ w.reflections ∧ r.userId = a ∧
      ∃ m ∈ w.media, m.id = r.mediaId ∧ m.isDeleted = false ∧
        ∃ al ∈ w.albums, al.id = m.albumId ∧ al.userId = b := by
  unfold getMediaReflectionsByUser
  by_cases hva : isValidObjectId a = true
  · by_cases hvb : isValidObjectId b = true
    · simp only [hva, hvb, Bool.not_true, Bool.or_self, Bool.false_eq_true,
        if_false, true_and]
      by_cases halb : ((w.albums.filter (fun x => x.userId == b)).map (·.id)).isEmpty = true
      · rw [if_pos halb]
        simp only [List.isEmpty_iff, List.map_eq_nil_iff,
          List.filter_eq_nil_iff] at halb
        simp only [List.not_mem_nil, false_iff]
        rintro ⟨-, -, m, -, -, -, al, hal, halid, halb'⟩
        exact halb al hal (by simp [halb'])
      · rw [if_neg halb]
        by_cases hmed : ((w.media.filter (fun m =>
            ((w.albums.filter (fun x => x.userId == b)).map (·.id)).contains
              m.albumId && !m.isDeleted)).map (·.id)).isEmpty = true
        · rw [if_pos hmed]
          simp only [List.isEmpty_iff, List.map_eq_nil_iff,
            List.filter_eq_nil_iff] at hmed
          simp only [List.not_mem_nil, false_iff]
          rintro ⟨-, hra, m, hm, hmid, hmdel, al, hal, halid, halb'⟩
          refine hmed m hm ?_
          simp only [Bool.and_eq_true, Bool.not_eq_true', hmdel, and_true]
          simp only [List.contains_iff_exists_mem_beq, List.mem_map,
            List.mem_filter]
          exact ⟨al.id, ⟨al, ⟨hal, by simp [halb']⟩, rfl⟩, by simp [halid]⟩
        · rw [if_neg hmed]
          simp only [List.mem_filter, Bool.and_eq_true, beq_iff_eq]
          constructor
          · rintro ⟨hrmem, hra, hcont⟩
            refine ⟨hrmem, hra, ?_⟩
            simp only [List.contains_iff_exists_mem_beq, List.mem_map,
              List.mem_filter, beq_iff_eq] at hcont
            obtain ⟨x, ⟨m, ⟨⟨hm, hcont2⟩, hxid⟩⟩, hxbeq⟩ := hcont
            simp only [Bool.and_eq_true, Bool.not_eq_true',
              List.contains_iff_exists_mem_beq, List.mem_map,
              List.mem_filter, beq_iff_eq] at hcont2
            obtain ⟨⟨y, ⟨al, ⟨hal, halb'⟩, hyid⟩, hybeq⟩, hmdel⟩ := hcont2
            refine ⟨m, hm, ?_, hmdel, al, hal, ?_, halb'⟩
            · exact hxid.trans hxbeq.symm
            · exact hyid.trans hybeq.symm
          · rintro ⟨hrmem, hra, m, hm, hmid, hmdel, al, hal, halid, halb'⟩
            refine ⟨hrmem, hra, ?_⟩
            simp only [List.contains_iff_exists_mem_beq, List.mem_map,
              List.mem_filter, beq_iff_eq]
            refine ⟨m.id, ⟨m, ⟨hm, ?_⟩, rfl⟩, by simp [hmid]⟩
            simp only [Bool.and_eq_true, Bool.not_eq_true', hmdel, and_true,
              List.contains_iff_exists_mem_beq, List.mem_map, List.mem_filter,
              beq_iff_eq]
            exact ⟨al.id, ⟨al, ⟨hal, halb'⟩, rfl⟩, by simp [halid]⟩
    · simp [hvb]
  · simp [hva]

/-- Membership in the favorited-album-id list. -/
theorem mem_favAlbumIds {w : World} {u : String} {x : Nat} :
    x ∈ favAlbumIds w u ↔ ∃ f, f ∈ w.favorites ∧ f.userId = u ∧ f.albumId = x := by
  unfold favAlbumIds
  simp only [List.mem_map, List.mem_filter, beq_iff_eq]
  constructor
  · rintro ⟨f, ⟨hf, hu⟩, hx⟩
    exact ⟨f, hf, hu, hx⟩
  · rintro ⟨f, hf, hu, hx⟩
    exact ⟨f, ⟨hf, hu⟩, hx⟩

/-- Membership in the mutual favorite list is the symmetric intersection of
the two users' favorite lists. -/
theorem mem_mutualFavAlbumIds {w : World} {u1 u2 : String} {x : Nat} :
    x ∈ mutualFavAlbumIds w u1 u2 ↔
      x ∈ favAlbumIds w u1 ∧ x ∈ favAlbumIds w u2 := by
  unfold mutualFavAlbumIds
  simp only [List.mem_map, List.mem_filter, Bool.and_eq_true, beq_iff_eq]
  constructor
  · rintro ⟨f, ⟨hf, hu2, hcont⟩, hx⟩
    subst hx
    exact ⟨by simpa using hcont, mem_favAlbumIds.mpr ⟨f, hf, hu2, rfl⟩⟩
  · rintro ⟨h1, h2⟩
    obtain ⟨f, hf, hu2, hx⟩ := mem_favAlbumIds.mp h2
    subst hx
    exact ⟨f, ⟨hf, hu2, by simpa using h1⟩, rfl⟩

/-- Emptiness of the mutual favorite list is direction-insensitive. -/
theorem mutualFav_isEmpty_comm (w : World) (u1 u2 : String) :
    (mutualFavAlbumIds w u1 u2).isEmpty = (mutualFavAlbumIds w u2 u1).isEmpty := by
  rw [Bool.eq_iff_iff]
  simp only [List.isEmpty_iff, List.eq_nil_iff_forall_not_mem]
  constructor <;> intro h x hx
  · have hm := mem_mutualFavAlbumIds.mp hx
    exact h x (mem_mutualFavAlbumIds.mpr ⟨hm.2, hm.1⟩)
  · have hm := mem_mutualFavAlbumIds.mp hx
    exact h x (mem_mutualFavAlbumIds.mpr ⟨hm.2, hm.1⟩)

/-- A nonempty mutual favorite list forces both users to have favorites. -/
theorem mutualFav_nonempty_favs {w : World} {u1 u2 : String}
    (h : (mutualFavAlbumIds w u1 u2).isEmpty = false) :
    (favAlbumIds w u1).isEmpty = false ∧ (favAlbumIds w u2).isEmpty = false := by
  rw [List.isEmpty_eq_false_iff_exists_mem] at h
  obtain ⟨x, hx⟩ := h
  have hm := mem_mutualFavAlbumIds.mp hx
  constructor <;> rw [List.isEmpty_eq_false_iff_exists_mem]
  · exact ⟨x, hm.1⟩
  · exact ⟨x, hm.2⟩

/-- The contains test on the mutual favorite list is direction-insensitive. -/
theorem contains_mutualFav_comm (w : World) (u1 u2 : String) (x : Nat) :
    (mutualFavAlbumIds w u1 u2).contains x =
      (mutualFavAlbumIds w u2 u1).contains x := by
  rw [Bool.eq_iff_iff]
  simp only [List.contains_iff_exists_mem_beq, beq_iff_eq]
  constructor
  · rintro ⟨y, hy, rfl⟩
    have hm := mem_mutualFavAlbumIds.mp hy
    exact ⟨x, mem_mutualFavAlbumIds.mpr ⟨hm.2, hm.1⟩, rfl⟩
  · rintro ⟨y, hy, rfl⟩
    have hm := mem_mutualFavAlbumIds.mp hy
    exact ⟨x, mem_mutualFavAlbumIds.mpr ⟨hm.2, hm.1⟩, rfl⟩

/-- The mutual-album documents are direction-insensitive: the same albums in
the same collection order. -/
theorem mutualAlbumDocs_comm (w : World) (u1 u2 : String) :
    mutualAlbumDocs w u1 u2 = mutualAlbumDocs w u2 u1 := by
  unfold mutualAlbumDocs
  apply List.filter_congr
  intro a _
  rw [contains_mutualFav_comm]

/-- checkConnectionEligibility is fully symmetric in the two users: both
orders return the very same answer, reasons included. -/
theorem checkConnectionEligibility_comm (w : World) (u1 u2 : String) :
    checkConnectionEligibility w u1 u2 = checkConnectionEligibility w u2 u1 := by
  rcases eq_or_ne u1 u2 with heq | hne
  · subst heq; rfl
  unfold checkConnectionEligibility
  rw [show (!isValidObjectId u2 || !isValidObjectId u1) =
      (!isValidObjectId u1 || !isValidObjectId u2) from Bool.or_comm _ _]
  rcases hval : (!isValidObjectId u1 || !isValidObjectId u2) with _ | _
  · simp only [Bool.false_eq_true, if_false]
    have hbeq : (u1 == u2) = false := beq_eq_false_iff_ne.mpr hne
    rw [string_beq_symm u2 u1, hbeq]
    simp only [Bool.false_eq_true, if_false]
    rcases hm : (mutualFavAlbumIds w u1 u2).isEmpty with _ | _
    · have hm2 : (mutualFavAlbumIds w u2 u1).isEmpty = false := by
        rw [← mutualFav_isEmpty_comm]; exact hm
      obtain ⟨hf1, hf2⟩ := mutualFav_nonempty_favs hm
      rw [hm2, hf1, hf2]
      simp only [Bool.false_eq_true, if_false]
      rw [← mutualAlbumDocs_comm w u1 u2]
      rw [show (((mutualAlbumDocs w u1 u2).filter
            (fun a => a.userId == u2)).isEmpty ||
          ((mutualAlbumDocs w u1 u2).filter
            (fun a => a.userId == u1)).isEmpty) =
          (((mutualAlbumDocs w u1 u2).filter
            (fun a => a.userId == u1)).isEmpty ||
          ((mutualAlbumDocs w u1 u2).filter
            (fun a => a.userId == u2)).isEmpty) from Bool.or_comm _ _]
      refine if_congr Iff.rfl rfl ?_
      rw [show ((getMediaReflectionsByUser w u2 u1).isEmpty ||
          (getMediaReflectionsByUser w u1 u2).isEmpty) =
          ((getMediaReflectionsByUser w u1 u2).isEmpty ||
          (getMediaReflectionsByUser w u2 u1).isEmpty) from Bool.or_comm _ _,
        Nat.add_comm (getMediaReflectionsByUser w u2 u1).length
          (getMediaReflectionsByUser w u1 u2).length]
    · have hm2 : (mutualFavAlbumIds w u2 u1).isEmpty = true := by
        rw [← mutualFav_isEmpty_comm]; exact hm
      rw [hm2]
      rcases hf1 : (favAlbumIds w u1).isEmpty with _ | _ <;>
        rcases hf2 : (favAlbumIds w u2).isEmpty with _ | _ <;>
          simp only [Bool.false_eq_true, if_false, if_true]
  · simp only [if_true]

/-- C7. checkConnectionEligibility answers with the same eligible flag, the
same reflectionCount and the same mutualAlbums (here even as identical
lists, so in particular equal up to ordering) for both argument orders. -/
theorem checkConnectionEligibility_symmetric (w : World) (u1 u2 : String) :
    (checkConnectionEligibility w u1 u2).map
        (fun e => (e.eligible, e.reflectionCount, e.mutualAlbums)) =
      (checkConnectionEligibility w u2 u1).map
        (fun e => (e.eligible, e.reflectionCount, e.mutualAlbums)) := by
  rw [checkConnectionEligibility_comm]

/-- normalizeUserIds is direction-insensitive on distinct ids. -/
theorem normalizeUserIds_comm {u1 u2 : String} (hne : u1 ≠ u2) :
    normalizeUserIds u1 u2 = normalizeUserIds u2 u1 := by
  unfold normalizeUserIds
  rcases lt_trichotomy u1 u2 with h | h | h
  · rw [if_pos h, if_neg (asymm h)]
  · exact absurd h hne
  · rw [if_neg (asymm h), if_pos h]

/-- The normalized pair is strictly sorted for distinct ids. -/
theorem normalizeUserIds_sorted {u1 u2 : String} (hne : u1 ≠ u2) :
    (normalizeUserIds u1 u2).1 < (normalizeUserIds u1 u2).2 := by
  unfold normalizeUserIds
  rcases lt_trichotomy u1 u2 with h | h | h
  · rw [if_pos h]
    exact h
  · exact absurd h hne
  · rw [if_neg (asymm h)]
    exact h

/-- createConnection is direction-insensitive for distinct users. -/
theorem createConnection_comm (w : World) (ts : TrailStore) {u1 u2 : String}
    (hne : u1 ≠ u2) :
    createConnection w ts u1 u2 = createConnection w ts u2 u1 := by
  unfold createConnection
  rw [show (!isValidObjectId u2 || !isValidObjectId u1) =
      (!isValidObjectId u1 || !isValidObjectId u2) from Bool.or_comm _ _,
    string_beq_symm u2 u1,
    show checkConnectionEligibility w u2 u1 = checkConnectionEligibility w u1 u2
      from (checkConnectionEligibility_comm w u1 u2).symm,
    show normalizeUserIds u2 u1 = normalizeUserIds u1 u2
      from (normalizeUserIds_comm hne).symm]

/-- The three possible outcomes of createConnection on the store: unchanged,
one existing document of the normalized pair updated in place, or one fresh
normalized document appended when the pair has no document. -/
theorem createConnectionStore_cases (w : World) (ts : TrailStore)
    (u1 u2 : String) :
    createConnectionStore w ts u1 u2 = ts ∨
    (∃ existing elig, ts.conns.find? (fun c =>
        c.userA == (normalizeUserIds u1 u2).1 &&
        c.userB == (normalizeUserIds u1 u2).2) = some existing ∧
      checkConnectionEligibility w u1 u2 = .ok elig ∧
      createConnectionStore w ts u1 u2 =
        { ts with conns := ts.conns.map (fun c =>
            if c.id == existing.id then
              { c with isActive := true,
                       mutualAlbumIds := elig.mutualAlbums.map (·.id),
                       reflectionCount := elig.reflectionCount }
            else c) }) ∨
    (∃ elig, ts.conns.find? (fun c =>
        c.userA == (normalizeUserIds u1 u2).1 &&
        c.userB == (normalizeUserIds u1 u2).2) = none ∧
      u1 ≠ u2 ∧
      checkConnectionEligibility w u1 u2 = .ok elig ∧
      createConnectionStore w ts u1 u2 =
        { conns := ts.conns ++
            [{ id := ts.nextId, userA := (normalizeUserIds u1 u2).1,
               userB := (normalizeUserIds u1 u2).2,
               mutualAlbumIds := elig.mutualAlbums.map (·.id),
               reflectionCount := elig.reflectionCount, isActive := true }],
          nextId := ts.nextId + 1 }) := by
  rcases hv1 : isValidObjectId u1 with _ | _
  · left
    unfold createConnectionStore createConnection
    rw [hv1]
    rfl
  rcases hv2 : isValidObjectId u2 with _ | _
  · left
    unfold createConnectionStore createConnection
    rw [hv1, hv2]
    rfl
  rcases heq : u1 == u2 with _ | _
  case true =>
    left
    unfold createConnectionStore createConnection
    rw [hv1, hv2, heq]
    rfl
  rcases helig : checkConnectionEligibility w u1 u2 with e | elig
  · left
    unfold createConnectionStore createConnection
    simp only [hv1, hv2, heq, helig]
    rfl
  rcases hel : elig.eligible with _ | _
  · left
    unfold createConnectionStore createConnection
    simp only [hv1, hv2, heq, helig, hel]
    rfl
  rcases hfind : ts.conns.find? (fun c =>
      c.userA == (normalizeUserIds u1 u2).1 &&
      c.userB == (normalizeUserIds u1 u2).2) with _ | existing
  · right; right
    refine ⟨elig, hfind, beq_eq_false_iff_ne.mp heq, rfl, ?_⟩
    unfold createConnectionStore createConnection
    simp only [hv1, hv2, heq, helig, hel, hfind]
    rfl
  rcases hact : existing.isActive with _ | _
  · right; left
    refine ⟨existing, elig, hfind, rfl, ?_⟩
    unfold createConnectionStore createConnection
    simp only [hv1, hv2, heq, helig, hel, hfind, hact]
    rfl
  · left
    unfold createConnectionStore createConnection
    simp only [hv1, hv2, heq, helig, hel, hfind, hact]
    rfl

/-- Mapping a per-document update that preserves ids leaves the id list of
the collection unchanged. -/
theorem map_id_of_update (l : List TrailConn) (f : TrailConn → TrailConn)
    (hf : ∀ c, (f c).id = c.id) :
    (l.map f).map (·.id) = l.map (·.id) := by
  rw [List.map_map]
  exact List.map_congr_left (fun c _ => hf c)

/-- C5. createConnection resolves both argument orders identically; any
document it adds carries the normalized pair with userA strictly below
userB under string comparison; when a document for the normalized pair
already exists, no call (createConnection in either order, or
updateConnectionEligibility) ever creates a second row: the id list of the
collection is unchanged. -/
theorem createConnection_pair_unique (w : World) (ts : TrailStore)
    (u1 u2 : String) (hne : u1 ≠ u2)
    (hids : (ts.conns.map (·.id)).Nodup) :
    createConnection w ts u1 u2 = createConnection w ts u2 u1 ∧
    (∀ c ∈ (createConnectionStore w ts u1 u2).conns, c ∉ ts.conns →
      c.userA = (normalizeUserIds u1 u2).1 ∧
      c.userB = (normalizeUserIds u1 u2).2 ∧ c.userA < c.userB) ∧
    ((∃ c ∈ ts.conns, c.userA = (normalizeUserIds u1 u2).1 ∧
        c.userB = (normalizeUserIds u1 u2).2) →
      (createConnectionStore w ts u1 u2).conns.map (·.id) =
        ts.conns.map (·.id)) ∧
    (updateConnectionEligibility w ts u1 u2).conns.map (·.id) =
      ts.conns.map (·.id) := by
  refine ⟨createConnection_comm w ts hne, ?_, ?_, ?_⟩
  · intro c hc hnot
    rcases createConnectionStore_cases w ts u1 u2 with hstore |
      ⟨existing, elig, hfind, -, hstore⟩ | ⟨elig, hfind, -, -, hstore⟩
    · rw [hstore] at hc
      exact absurd hc hnot
    · rw [hstore] at hc
      obtain ⟨x, hx, hcx⟩ := List.mem_map.mp hc
      rcases hxid : x.id == existing.id with _ | _
      · rw [hxid] at hcx
        simp only [Bool.false_eq_true, if_false] at hcx
        rw [← hcx] at hnot
        exact absurd hx hnot
      · have hex : existing ∈ ts.conns := List.mem_of_find?_eq_some hfind
        have hxeq : x = existing :=
          List.inj_on_of_nodup_map hids hx hex (beq_iff_eq.mp hxid)
        have hpred := List.find?_some hfind
        simp only [Bool.and_eq_true, beq_iff_eq] at hpred
        subst hxeq
        rw [hxid] at hcx
        simp only [if_true] at hcx
        rw [← hcx]
        refine ⟨hpred.1, hpred.2, ?_⟩
        show x.userA < x.userB
        rw [hpred.1, hpred.2]
        exact normalizeUserIds_sorted hne
    · rw [hstore] at hc
      simp only [List.mem_append, List.mem_singleton] at hc
      rcases hc with hc | hc
      · exact absurd hc hnot
      · subst hc
        exact ⟨rfl, rfl, normalizeUserIds_sorted hne⟩
  · rintro ⟨c, hcmem, hA, hB⟩
    rcases createConnectionStore_cases w ts u1 u2 with hstore |
      ⟨existing, elig, hfind, -, hstore⟩ | ⟨elig, hfind, -, -, hstore⟩
    · rw [hstore]
    · rw [hstore]
      exact map_id_of_update _ _ (fun c => by
        by_cases h : (c.id == existing.id) = true <;> simp [h])
    · exfalso
      rw [List.find?_eq_none] at hfind
      exact hfind c hcmem (by simp [hA, hB])
  · unfold updateConnectionEligibility
    rcases hf2 : ts.conns.find? (fun c =>
        c.userA == (normalizeUserIds u1 u2).1 &&
        c.userB == (normalizeUserIds u1 u2).2 && c.isActive) with _ | existing
    · rw [hf2]
    · rw [hf2]
      rcases helig : checkConnectionEligibility w u1 u2 with e | elig
      · rfl
      · exact map_id_of_update _ _ (fun c => by
          by_cases h : (c.id == existing.id) = true <;> simp [h])

/-- C5 witness: on the concrete eligible world with an empty trail store,
createConnection behaves identically in both orders, adds only normalized
rows, and never duplicates an existing pair row. -/
theorem createConnection_pair_unique_witness :
    createConnection eligibleWorld { conns := [], nextId := 0 } userA_id
        userB_id =
      createConnection eligibleWorld { conns := [], nextId := 0 } userB_id
        userA_id ∧
    (∀ c ∈ (createConnectionStore eligibleWorld { conns := [], nextId := 0 }
        userA_id userB_id).conns,
      c ∉ ({ conns := [], nextId := 0 } : TrailStore).conns →
      c.userA = (normalizeUserIds userA_id userB_id).1 ∧
      c.userB = (normalizeUserIds userA_id userB_id).2 ∧ c.userA < c.userB) ∧
    ((∃ c ∈ ({ conns := [], nextId := 0 } : TrailStore).conns,
        c.userA = (normalizeUserIds userA_id userB_id).1 ∧
        c.userB = (normalizeUserIds userA_id userB_id).2) →
      (createConnectionStore eligibleWorld { conns := [], nextId := 0 }
          userA_id userB_id).conns.map (·.id) =
        ({ conns := [], nextId := 0 } : TrailStore).conns.map (·.id)) ∧
    (updateConnectionEligibility eligibleWorld { conns := [], nextId := 0 }
        userA_id userB_id).conns.map (·.id) =
      ({ conns := [], nextId := 0 } : TrailStore).conns.map (·.id) :=
  createConnection_pair_unique eligibleWorld { conns := [], nextId := 0 }
    userA_id userB_id (by decide) (by decide)

/-- Inserting into the descending-sorted list permutes consing. -/
theorem insertDesc_perm (m : Msg) (l : List Msg) :
    (insertDesc m l).Perm (m :: l) := by
  induction l with
  | nil => exact List.Perm.refl _
  | cons x xs ih =>
    unfold insertDesc
    by_cases h : x.createdAt ≤ m.createdAt
    · rw [if_pos h]
    · rw [if_neg h]
      exact (ih.cons x).trans (List.Perm.swap m x xs)

/-- The descending sort is a permutation of its input. -/
theorem sortByCreatedDesc_perm (l : List Msg) :
    (sortByCreatedDesc l).Perm l := by
  induction l with
  | nil => exact List.Perm.refl _
  | cons m ms ih =>
    unfold sortByCreatedDesc
    exact (insertDesc_perm m (sortByCreatedDesc ms)).trans (ih.cons m)

/-- Inserting into the ascending-sorted list permutes consing. -/
theorem insertAsc_perm (m : Msg) (l : List Msg) :
    (insertAsc m l).Perm (m :: l) := by
  induction l with
  | nil => exact List.Perm.refl _
  | cons x xs ih =>
    unfold insertAsc
    by_cases h : m.createdAt ≤ x.createdAt
    · rw [if_pos h]
    · rw [if_neg h]
      exact (ih.cons x).trans (List.Perm.swap m x xs)

/-- The ascending sort is a permutation of its input. -/
theorem sortByCreatedAsc_perm (l : List Msg) :
    (sortByCreatedAsc l).Perm l := by
  induction l with
  | nil => exact List.Perm.refl _
  | cons m ms ih =>
    unfold sortByCreatedAsc
    exact (insertAsc_perm m (sortByCreatedAsc ms)).trans (ih.cons m)

/-- Every returned page message is a stored message of the pair. -/
theorem mem_pageMsgs {store : MsgStore} {u o : String} {bound : Option Nat}
    {limit : Nat} {dir : Direction} {m : Msg}
    (h : m ∈ pageMsgs store u o bound limit dir) :
    m ∈ store.msgs ∧ pairPred u o m = true := by
  unfold pageMsgs fetchedPage at h
  have hsorted : m ∈ store.msgs.filter (fun m =>
      pairPred u o m && boundPred bound dir m) := by
    rcases dir
    · rw [List.mem_reverse] at h
      exact ((sortByCreatedDesc_perm _).mem_iff).mp
        (List.take_subset _ _ (List.take_subset _ _ h))
    · exact ((sortByCreatedAsc_perm _).mem_iff).mp
        (List.take_subset _ _ (List.take_subset _ _ h))
  have h4 := List.mem_filter.mp hsorted
  exact ⟨h4.1, Bool.and_elim_left h4.2⟩

/-- Inverting a successful getMessages call: the cursor resolved (to no
bound, or to the createdAt of the message found by id) and the answer is
that of getMessagesCore. -/
theorem getMessages_ok_inv {conns : ConnStore} {store : MsgStore}
    {u o : String} {cursor : Option Nat} {limit : Nat} {dir : Direction}
    {now : Nat} {store' : MsgStore} {res : GetMessagesResult}
    (h : getMessages conns store u o cursor limit dir now = .ok (store', res)) :
    ∃ bound, getMessagesCore store u o bound limit dir now = (store', res) := by
  unfold getMessages at h
  split at h
  · simp at h
  split at h
  · simp at h
  split at h
  · simp at h
  split at h
  · exact ⟨none, by injection h⟩
  split at h
  · simp at h
  · rename_i cm heq
    exact ⟨some cm.createdAt, by injection h⟩

/-- Messages sharing an id in a store with distinct ids are equal. -/
theorem msg_id_inj {l : List Msg} (h : (l.map (·.id)).Nodup) {m1 m2 : Msg}
    (h1 : m1 ∈ l) (h2 : m2 ∈ l) (he : m1.id = m2.id) : m1 = m2 :=
  List.inj_on_of_nodup_map h h1 h2 he

/-- A pair message sent by the caller is received by the other user. -/
theorem pairPred_sender {u o : String} {m : Msg} (hne : u ≠ o)
    (hp : pairPred u o m = true) (hs : m.senderId = u) : m.receiverId = o := by
  unfold pairPred at hp
  simp only [Bool.or_eq_true, Bool.and_eq_true, beq_iff_eq] at hp
  rcases hp with ⟨h1, h2⟩ | ⟨h1, h2⟩
  · exact h2
  · rw [hs] at h1
    exact absurd h1 hne

/-- A natural absent from a list makes contains answer false. -/
theorem contains_eq_false_of_not_mem {l : List Nat} {x : Nat} (h : x ∉ l) :
    l.contains x = false := by
  rcases hc : l.contains x with _ | _
  · rfl
  · exact absurd (by simpa using hc) h

/-- C9. After a successful getMessages call, every returned message received
by the caller that was stored unread is stored with isRead true and readAt
equal to the call time, and every returned message sent by the caller is
left unmodified in the store. Store ids are assumed distinct (database id
uniqueness). -/
theorem getMessages_read_receipts (conns : ConnStore) (store : MsgStore)
    (u o : String) (cursor : Option Nat) (limit : Nat) (dir : Direction)
    (now : Nat) (store' : MsgStore) (res : GetMessagesResult)
    (hids : (store.msgs.map (·.id)).Nodup) (hne : u ≠ o)
    (h : getMessages conns store u o cursor limit dir now = .ok (store', res)) :
    (∀ v ∈ res.messages, v.receiverId = u →
      ∀ m ∈ store.msgs, m.id = v.id → m.isRead = false →
        ∃ m' ∈ store'.msgs, m'.id = v.id ∧ m'.isRead = true ∧
          m'.readAt = some now) ∧
    (∀ v ∈ res.messages, v.senderId = u →
      ∀ m ∈ store.msgs, m.id = v.id → m ∈ store'.msgs) := by
  obtain ⟨bound, hcore⟩ := getMessages_ok_inv h
  unfold getMessagesCore at hcore
  rw [Prod.mk.injEq] at hcore
  obtain ⟨hs, hr⟩ := hcore
  have hres : res.messages =
      (pageMsgs store u o bound limit dir).map (msgToView u) := by
    rw [← hr]
  have hstore : store'.msgs = store.msgs.map
      (markRead (unreadIdsOf store u o bound limit dir) now) := by
    rw [← hs]
  constructor
  · intro v hv hvrecv m hm hmid hmread
    rw [hres] at hv
    obtain ⟨m₀, hm₀page, hview⟩ := List.mem_map.mp hv
    have hpair := mem_pageMsgs hm₀page
    have hvid : v.id = m₀.id := by rw [← hview]; rfl
    have hmeq : m = m₀ := msg_id_inj hids hm hpair.1 (hmid.trans hvid)
    have hrecv : m₀.receiverId = u := by rw [← hview] at hvrecv; exact hvrecv
    have hread : m₀.isRead = false := by rw [← hmeq]; exact hmread
    have hin : m₀.id ∈ unreadIdsOf store u o bound limit dir := by
      unfold unreadIdsOf
      exact List.mem_map_of_mem _ (List.mem_filter.mpr ⟨hm₀page, by
        simp [hrecv, hread]⟩)
    have hct : (unreadIdsOf store u o bound limit dir).contains m₀.id = true :=
      by simpa using hin
    refine ⟨markRead (unreadIdsOf store u o bound limit dir) now m₀, ?_, ?_, ?_, ?_⟩
    · rw [hstore, hmeq] at *
      exact List.mem_map_of_mem _ hpair.1
    · unfold markRead
      rw [hct]
      simp only [if_true]
      exact hvid.symm
    · unfold markRead
      rw [hct]
      rfl
    · unfold markRead
      rw [hct]
      rfl
  · intro v hv hvsend m hm hmid
    rw [hres] at hv
    obtain ⟨m₀, hm₀page, hview⟩ := List.mem_map.mp hv
    have hpair := mem_pageMsgs hm₀page
    have hvid : v.id = m₀.id := by rw [← hview]; rfl
    have hmeq : m = m₀ := msg_id_inj hids hm hpair.1 (hmid.trans hvid)
    have hsend : m₀.senderId = u := by rw [← hview] at hvsend; exact hvsend
    have hrecv : m₀.receiverId = o := pairPred_sender hne hpair.2 hsend
    have hnotin : m.id ∉ unreadIdsOf store u o bound limit dir := by
      intro hin
      unfold unreadIdsOf at hin
      obtain ⟨z, hzf, hzid⟩ := List.mem_map.mp hin
      have hzfilter := List.mem_filter.mp hzf
      have hz := mem_pageMsgs hzfilter.1
      have hzeq : z = m := msg_id_inj hids hz.1 hm hzid
      have hzrecv := Bool.and_elim_left hzfilter.2
      rw [hzeq, hmeq] at hzrecv
      rw [hrecv] at hzrecv
      exact hne ((beq_iff_eq.mp hzrecv).symm)
    have hmark : markRead (unreadIdsOf store u o bound limit dir) now m = m := by
      unfold markRead
      rw [contains_eq_false_of_not_mem hnotin]
      rfl
    rw [hstore]
    have := List.mem_map_of_mem
      (markRead (unreadIdsOf store u o bound limit dir) now) hm
    rwa [hmark] at this

/-- C10. In the getMessages response, every message sent by the caller is
reported with isRead true regardless of its stored value, and every message
received by the caller is reported with the isRead stored before this call's
read-marking update, so a message marked read by this very call is still
reported unread in the same response. -/
theorem getMessages_isRead_reporting (conns : ConnStore) (store : MsgStore)
    (u o : String) (cursor : Option Nat) (limit : Nat) (dir : Direction)
    (now : Nat) (store' : MsgStore) (res : GetMessagesResult)
    (hids : (store.msgs.map (·.id)).Nodup) (hne : u ≠ o)
    (h : getMessages conns store u o cursor limit dir now = .ok (store', res)) :
    ∀ v ∈ res.messages,
      (v.senderId = u → v.isRead = true) ∧
      (v.receiverId = u → ∃ m ∈ store.msgs, m.id = v.id ∧
        v.isRead = m.isRead ∧ v.readAt = m.readAt) := by
  obtain ⟨bound, hcore⟩ := getMessages_ok_inv h
  unfold getMessagesCore at hcore
  rw [Prod.mk.injEq] at hcore
  obtain ⟨hs, hr⟩ := hcore
  have hres : res.messages =
      (pageMsgs store u o bound limit dir).map (msgToView u) := by
    rw [← hr]
  intro v hv
  rw [hres] at hv
  obtain ⟨m₀, hm₀page, hview⟩ := List.mem_map.mp hv
  have hpair := mem_pageMsgs hm₀page
  constructor
  · intro hvsend
    have hsend : m₀.senderId = u := by rw [← hview] at hvsend; exact hvsend
    have hrecv : m₀.receiverId = o := pairPred_sender hne hpair.2 hsend
    rw [← hview]
    show (if m₀.receiverId == u then m₀.isRead else true) = true
    rw [hrecv, beq_eq_false_iff_ne.mpr (Ne.symm hne)]
    rfl
  · intro hvrecv
    have hrecv : m₀.receiverId = u := by rw [← hview] at hvrecv; exact hvrecv
    refine ⟨m₀, hpair.1, ?_, ?_, ?_⟩
    · rw [← hview]
      rfl
    · rw [← hview]
      show (if m₀.receiverId == u then m₀.isRead else true) = m₀.isRead
      rw [hrecv, beq_self_eq_true]
      rfl
    · rw [← hview]
      rfl

/-- C9 witness: on the concrete fetch the unread received message is stored
as read at the call time, and sent messages are untouched. -/
theorem getMessages_read_receipts_witness :
    (∀ v ∈ resW.messages, v.receiverId = userA_id →
      ∀ m ∈ storeW.msgs, m.id = v.id → m.isRead = false →
        ∃ m' ∈ storeW'.msgs, m'.id = v.id ∧ m'.isRead = true ∧
          m'.readAt = some 9) ∧
    (∀ v ∈ resW.messages, v.senderId = userA_id →
      ∀ m ∈ storeW.msgs, m.id = v.id → m ∈ storeW'.msgs) :=
  getMessages_read_receipts connsW storeW userA_id userB_id none 50 .before 9
    storeW' resW (by decide) (by decide) (by rfl)

/-- C10 witness: on the concrete fetch the received message is reported with
its pre-call isRead value. -/
theorem getMessages_isRead_reporting_witness :
    resW.messages.length = 1 ∧
    ∀ v ∈ resW.messages,
      (v.senderId = userA_id → v.isRead = true) ∧
      (v.receiverId = userA_id → ∃ m ∈ storeW.msgs, m.id = v.id ∧
        v.isRead = m.isRead ∧ v.readAt = m.readAt) :=
  ⟨by decide,
   getMessages_isRead_reporting connsW storeW userA_id userB_id none 50
     .before 9 storeW' resW (by decide) (by decide) (by rfl)⟩

/-- insertDesc keeps the descending order. -/
theorem insertDesc_sorted {l : List Msg} (m : Msg)
    (h : List.Pairwise (fun a b => b.createdAt ≤ a.createdAt) l) :
    List.Pairwise (fun a b => b.createdAt ≤ a.createdAt) (insertDesc m l) := by
  induction l with
  | nil => simp [insertDesc]
  | cons x xs ih =>
    obtain ⟨hx, hxs⟩ := List.pairwise_cons.mp h
    unfold insertDesc
    by_cases hc : x.createdAt ≤ m.createdAt
    · rw [if_pos hc]
      refine List.pairwise_cons.mpr ⟨?_, h⟩
      intro y hy
      rcases List.mem_cons.mp hy with rfl | hy'
      · exact hc
      · exact le_trans (hx y hy') hc
    · rw [if_neg hc]
      refine List.pairwise_cons.mpr ⟨?_, ih hxs⟩
      intro y hy
      rcases List.mem_cons.mp ((insertDesc_perm m xs).mem_iff.mp hy) with rfl | hy'
      · exact le_of_lt (Nat.lt_of_not_le hc)
      · exact hx y hy'

/-- The descending sort is descending. -/
theorem sortByCreatedDesc_sorted (l : List Msg) :
    List.Pairwise (fun a b => b.createdAt ≤ a.createdAt) (sortByCreatedDesc l) := by
  induction l with
  | nil => simp [sortByCreatedDesc]
  | cons m ms ih =>
    unfold sortByCreatedDesc
    exact insertDesc_sorted m ih

/-- With distinct keys the projected descending sort is strictly
descending. -/
theorem sortDesc_proj_strict {l : List Msg}
    (hkeys : (l.map (·.createdAt)).Nodup) :
    List.Pairwise (fun a b : Nat × Nat => b.2 < a.2)
      ((sortByCreatedDesc l).map pj) := by
  have hkeys' : ((sortByCreatedDesc l).map (·.createdAt)).Nodup :=
    (((sortByCreatedDesc_perm l).map (fun m : Msg => m.createdAt)).symm).nodup hkeys
  have hne : List.Pairwise (fun a b : Msg => a.createdAt ≠ b.createdAt)
      (sortByCreatedDesc l) := List.pairwise_map.mp hkeys'
  rw [List.pairwise_map]
  exact ((sortByCreatedDesc_sorted l).and hne).imp
    (fun h => lt_of_le_of_ne h.1 (Ne.symm h.2))

/-- Two strictly descending lists of projections with the same multiset of
elements are equal. -/
theorem strict_desc_unique {l1 l2 : List (Nat × Nat)} (hp : l1.Perm l2)
    (h1 : List.Pairwise (fun a b => b.2 < a.2) l1)
    (h2 : List.Pairwise (fun a b => b.2 < a.2) l2) : l1 = l2 := by
  have hanti : ∀ a b : Nat × Nat,
      (b.2 < a.2 ∨ a = b) → (a.2 < b.2 ∨ b = a) → a = b := by
    rintro a b (h | h) (h' | h')
    · exact absurd h' (Nat.lt_asymm h)
    · exact h'.symm
    · exact h
    · exact h
  have inst : IsAntisymm (Nat × Nat) (fun a b : Nat × Nat => b.2 < a.2 ∨ a = b) :=
    IsAntisymm.mk hanti
  exact @List.eq_of_perm_of_sorted _ (fun a b : Nat × Nat => b.2 < a.2 ∨ a = b)
    inst _ _ hp (h1.imp (fun h => Or.inl h)) (h2.imp (fun h => Or.inl h))

/-- The last element of a strictly descending list is its minimum. -/
theorem getLast_min_of_strict_desc {l : List (Nat × Nat)} {x : Nat × Nat}
    (hd : List.Pairwise (fun a b => b.2 < a.2) l) (hx : l.getLast? = some x) :
    ∀ a ∈ l, x.2 ≤ a.2 := by
  induction l with
  | nil => cases hx
  | cons y ys ih =>
    obtain ⟨hy, hys⟩ := List.pairwise_cons.mp hd
    cases ys with
    | nil =>
      intro a ha
      rcases List.mem_cons.mp ha with heq | ha'
      · have hyx : y = x := by simpa using hx
        simp [heq, hyx]
      · cases ha'
    | cons z zs =>
      rw [List.getLast?_cons_cons] at hx
      intro a ha
      rcases List.mem_cons.mp ha with heq | ha'
      · rw [heq]
        exact le_of_lt (hy x (List.mem_of_mem_getLast? hx))
      · exact ih hys hx a ha'

/-- Filtering a strictly descending list strictly below the key of the last
element of its first n entries drops exactly those n entries. -/
theorem filter_lt_last_take {l : List (Nat × Nat)} {n : Nat} {x : Nat × Nat}
    (hd : List.Pairwise (fun a b => b.2 < a.2) l)
    (hx : (l.take n).getLast? = some x) :
    l.filter (fun a => decide (a.2 < x.2)) = l.drop n := by
  have hd' : List.Pairwise (fun a b : Nat × Nat => b.2 < a.2)
      (l.take n ++ l.drop n) := by
    rw [List.take_append_drop]
    exact hd
  have hdt : List.Pairwise (fun a b : Nat × Nat => b.2 < a.2) (l.take n) :=
    List.Pairwise.sublist (List.take_sublist n l) hd
  have hsplit := (List.pairwise_append.mp hd').2.2
  have hxmem : x ∈ l.take n := List.mem_of_mem_getLast? hx
  have htake : (l.take n).filter (fun a => decide (a.2 < x.2)) = [] := by
    rw [List.filter_eq_nil_iff]
    intro a ha
    simp only [decide_eq_true_eq]
    exact Nat.not_lt.mpr (getLast_min_of_strict_desc hdt hx a ha)
  have hdrop : (l.drop n).filter (fun a => decide (a.2 < x.2)) = l.drop n := by
    rw [List.filter_eq_self]
    intro a ha
    simp only [decide_eq_true_eq]
    exact hsplit x hxmem a ha
  conv_lhs => rw [← List.take_append_drop n l]
  rw [List.filter_append, htake, hdrop, List.nil_append]

/-- Filtering messages on a predicate of their projection commutes with
projecting. -/
theorem filter_proj_comm (l : List Msg) (p : Msg → Bool)
    (q : Nat × Nat → Bool) (hpq : ∀ m, p m = q (pj m)) :
    (l.filter p).map pj = (l.map pj).filter q := by
  rw [List.filter_map]
  congr 1
  exact List.filter_congr (fun m _ => hpq m)

/-- The direction before query equals the projected descending pair log
filtered by the cursor condition. -/
theorem query_proj_before (store : MsgStore) (u o : String)
    (bound : Option Nat)
    (hkeys : ((store.msgs.filter (pairPred u o)).map (·.createdAt)).Nodup) :
    (sortByCreatedDesc (store.msgs.filter (fun m =>
        pairPred u o m && boundPred bound .before m))).map pj =
      projPage store u o bound := by
  have ha : store.msgs.filter (fun m =>
      pairPred u o m && boundPred bound .before m) =
      (store.msgs.filter (pairPred u o)).filter
        (fun m => boundPred bound .before m) := by
    rw [List.filter_filter]
    exact List.filter_congr (fun m _ => Bool.and_comm _ _)
  rw [ha]
  have hQ : ∀ m : Msg, boundPred bound .before m = boundPredP bound (pj m) := by
    intro m
    cases bound <;> rfl
  have hkeysF : (((store.msgs.filter (pairPred u o)).filter
      (fun m => boundPred bound .before m)).map (·.createdAt)).Nodup :=
    List.Nodup.sublist (List.Sublist.map _ (List.filter_sublist _)) hkeys
  have hstrictL := sortDesc_proj_strict hkeysF
  have hstrictD := sortDesc_proj_strict hkeys
  have hstrictR : List.Pairwise (fun a b : Nat × Nat => b.2 < a.2)
      (projPage store u o bound) :=
    List.Pairwise.sublist (List.filter_sublist _) hstrictD
  have hpermL : ((sortByCreatedDesc ((store.msgs.filter
      (pairPred u o)).filter (fun m => boundPred bound .before m))).map
        pj).Perm
      (((store.msgs.filter (pairPred u o)).filter
        (fun m => boundPred bound .before m)).map pj) :=
    (sortByCreatedDesc_perm _).map pj
  have hpermR : (projPage store u o bound).Perm
      (((store.msgs.filter (pairPred u o)).filter
        (fun m => boundPred bound .before m)).map pj) := by
    unfold projPage
    rw [← filter_proj_comm _ _ _ hQ]
    exact ((sortByCreatedDesc_perm _).filter _).map pj
  exact strict_desc_unique (hpermL.trans hpermR.symm) hstrictL hstrictR

/-- The direction before answer of getMessagesCore, described at the
projection level against the filtered descending pair log. -/
theorem core_before_facts (store : MsgStore) (u o : String)
    (bound : Option Nat) (limit : Nat) (now : Nat)
    (hkeys : ((store.msgs.filter (pairPred u o)).map (·.createdAt)).Nodup) :
    ((getMessagesCore store u o bound limit .before now).2).messages.map pv =
      ((projPage store u o bound).take limit).reverse ∧
    ((getMessagesCore store u o bound limit .before now).2).hasMore =
      decide (limit < (projPage store u o bound).length) ∧
    ((getMessagesCore store u o bound limit .before now).2).nextCursor =
      ((projPage store u o bound).take limit).getLast?.map (·.1) ∧
    ((getMessagesCore store u o bound limit .before now).1).msgs =
      store.msgs.map (markRead (unreadIdsOf store u o bound limit .before)
        now) := by
  have hE := query_proj_before store u o bound hkeys
  have hpage : (pageMsgs store u o bound limit .before).map pj =
      ((projPage store u o bound).take limit).reverse := by
    show (((fetchedPage store u o bound limit .before).take limit).reverse).map
      pj = ((projPage store u o bound).take limit).reverse
    show ((((sortByCreatedDesc (store.msgs.filter (fun m =>
      pairPred u o m && boundPred bound .before m))).take (limit + 1)).take
        limit).reverse).map pj = ((projPage store u o bound).take limit).reverse
    rw [List.map_reverse, List.map_take, List.map_take, hE, List.take_take,
      Nat.min_eq_left (Nat.le_succ limit)]
  have hlen : (fetchedPage store u o bound limit .before).length =
      min (limit + 1) (projPage store u o bound).length := by
    show ((sortByCreatedDesc (store.msgs.filter (fun m =>
      pairPred u o m && boundPred bound .before m))).take (limit + 1)).length =
        min (limit + 1) (projPage store u o bound).length
    rw [List.length_take]
    have hlen2 := congrArg List.length hE
    rw [List.length_map] at hlen2
    rw [hlen2]
  refine ⟨?_, ?_, ?_, rfl⟩
  · show ((pageMsgs store u o bound limit .before).map (msgToView u)).map pv =
      ((projPage store u o bound).take limit).reverse
    rw [List.map_map]
    exact hpage
  · show decide (limit < (fetchedPage store u o bound limit .before).length) =
      decide (limit < (projPage store u o bound).length)
    rw [hlen]
    exact decide_eq_decide.mpr (by omega)
  · show ((pageMsgs store u o bound limit .before).map
      (msgToView u)).head?.map (·.id) =
      ((projPage store u o bound).take limit).getLast?.map (·.1)
    have h1 : (pageMsgs store u o bound limit .before).head?.map pj =
        ((projPage store u o bound).take limit).getLast? := by
      have h2 := congrArg List.head? hpage
      rw [List.head?_map, List.head?_reverse] at h2
      exact h2
    rw [List.head?_map, Option.map_map]
    rw [show ((fun v : MsgView => v.id) ∘ msgToView u) =
      ((fun x : Nat × Nat => x.1) ∘ pj) from rfl]
    rw [← Option.map_map, h1]

/-- markRead changes neither the projection nor the pair fields. -/
theorem markRead_proj (u o : String) (ids : List Nat) (now : Nat) (m : Msg) :
    pj (markRead ids now m) = pj m ∧
    pairPred u o (markRead ids now m) = pairPred u o m ∧
    (markRead ids now m).id = m.id := by
  unfold markRead
  by_cases h : m.id ∈ ids
  · simp [h, pj, pairPred]
  · simp [h, pj, pairPred]

/-- The id list of the store is unchanged by the read-marking update. -/
theorem markRead_ids (msgs : List Msg) (ids : List Nat) (now : Nat) :
    (msgs.map (markRead ids now)).map (·.id) = msgs.map (·.id) := by
  rw [List.map_map]
  exact List.map_congr_left (fun m _ => (markRead_proj "" "" ids now m).2.2)

/-- The projected pair log is unchanged by the read-marking update. -/
theorem markRead_pair_proj (msgs : List Msg) (ids : List Nat) (now : Nat)
    (u o : String) :
    ((msgs.map (markRead ids now)).filter (pairPred u o)).map pj =
      (msgs.filter (pairPred u o)).map pj := by
  rw [List.filter_map, List.map_map]
  have h1 : List.filter (pairPred u o ∘ markRead ids now) msgs =
      List.filter (pairPred u o) msgs :=
    List.filter_congr (fun m _ => (markRead_proj u o ids now m).2.1)
  rw [h1]
  exact List.map_congr_left (fun m _ => (markRead_proj u o ids now m).1)

/-- The projected descending pair log is unchanged by the read-marking
update. -/
theorem markRead_sort_proj (msgs : List Msg) (ids : List Nat) (now : Nat)
    (u o : String)
    (hkeys : ((msgs.filter (pairPred u o)).map (·.createdAt)).Nodup) :
    (sortByCreatedDesc ((msgs.map (markRead ids now)).filter
      (pairPred u o))).map pj =
      (sortByCreatedDesc (msgs.filter (pairPred u o))).map pj := by
  have hproj := markRead_pair_proj msgs ids now u o
  have hkeys2 : (((msgs.map (markRead ids now)).filter
      (pairPred u o)).map (·.createdAt)).Nodup := by
    have h2 := congrArg (List.map (fun x : Nat × Nat => x.2)) hproj
    rw [List.map_map, List.map_map] at h2
    exact h2 ▸ hkeys
  have hstrict1 := sortDesc_proj_strict hkeys2
  have hstrict2 := sortDesc_proj_strict hkeys
  have hperm : ((sortByCreatedDesc ((msgs.map (markRead ids now)).filter
      (pairPred u o))).map pj).Perm
      ((sortByCreatedDesc (msgs.filter (pairPred u o))).map pj) := by
    refine (((sortByCreatedDesc_perm _).map pj).trans ?_).trans
      ((sortByCreatedDesc_perm _).map pj).symm
    rw [hproj]
  exact strict_desc_unique hperm hstrict1 hstrict2

/-- A successful cursor-free getMessages is the core answer. -/
theorem getMessages_ok_none (conns : ConnStore) (store : MsgStore)
    (u o : String) (limit : Nat) (dir : Direction) (now : Nat)
    (hconn : areConnected conns u o = true) (hl1 : 1 ≤ limit)
    (hl2 : limit ≤ 100) :
    getMessages conns store u o none limit dir now =
      .ok (getMessagesCore store u o none limit dir now) := by
  obtain ⟨hv1, hv2⟩ := areConnected_valid hconn
  have hb1 : decide (limit < 1) = false := decide_eq_false (Nat.not_lt.mpr hl1)
  have hb2 : decide (limit > 100) = false := decide_eq_false (Nat.not_lt.mpr hl2)
  unfold getMessages
  rw [hv1, hv2, hb1, hb2, hconn]
  rfl

/-- A successful getMessages with a cursor resolving to a stored message is
the core answer bounded by that message's createdAt. -/
theorem getMessages_ok_some (conns : ConnStore) (store : MsgStore)
    (u o : String) (c : Nat) (cm : Msg) (limit : Nat) (dir : Direction)
    (now : Nat)
    (hconn : areConnected conns u o = true) (hl1 : 1 ≤ limit)
    (hl2 : limit ≤ 100)
    (hfind : store.msgs.find? (fun m => m.id == c) = some cm) :
    getMessages conns store u o (some c) limit dir now =
      .ok (getMessagesCore store u o (some cm.createdAt) limit dir now) := by
  obtain ⟨hv1, hv2⟩ := areConnected_valid hconn
  have hb1 : decide (limit < 1) = false := decide_eq_false (Nat.not_lt.mpr hl1)
  have hb2 : decide (limit > 100) = false := decide_eq_false (Nat.not_lt.mpr hl2)
  unfold getMessages
  rw [hv1, hv2, hb1, hb2, hconn]
  show (match store.msgs.find? (fun m => m.id == c) with
    | none => Except.error (DomErr.badRequest "Cursor message not found")
    | some cm =>
      Except.ok (getMessagesCore store u o (some cm.createdAt) limit
        dir now)) =
    Except.ok (getMessagesCore store u o (some cm.createdAt) limit dir now)
  rw [hfind]

/-- An element of the direction before projected query comes from a stored
pair message. -/
theorem mem_projPage {store : MsgStore} {u o : String} {bound : Option Nat}
    {x : Nat × Nat} (hx : x ∈ projPage store u o bound) :
    ∃ m ∈ store.msgs, pairPred u o m = true ∧ pj m = x := by
  unfold projPage at hx
  have hx2 := List.mem_of_mem_filter hx
  obtain ⟨m, hm, rfl⟩ := List.mem_map.mp hx2
  have hm2 := (sortByCreatedDesc_perm _).mem_iff.mp hm
  exact ⟨m, List.mem_of_mem_filter hm2, List.of_mem_filter hm2, rfl⟩

/-- In a store with distinct ids, looking a member up by its id finds
exactly it. -/
theorem find?_of_mem_nodup {l : List Msg} (h : (l.map (·.id)).Nodup)
    {m : Msg} (hm : m ∈ l) :
    l.find? (fun q => q.id == m.id) = some m := by
  rcases hfind : l.find? (fun q => q.id == m.id) with _ | cm
  · exfalso
    have hnone := List.find?_eq_none.mp hfind m hm
    simp at hnone
  · have hmem := List.mem_of_find?_eq_some hfind
    have hp := List.find?_some hfind
    have hid : cm.id = m.id := by simpa using hp
    rw [msg_id_inj h hmem hm hid] at hfind
    exact hfind

/-- The pair createdAt key list is unchanged by the read-marking update. -/
theorem markRead_keys (msgs : List Msg) (ids : List Nat) (now : Nat)
    (u o : String) :
    ((msgs.map (markRead ids now)).filter (pairPred u o)).map (·.createdAt) =
      (msgs.filter (pairPred u o)).map (·.createdAt) := by
  have h2 := congrArg (List.map (fun x : Nat × Nat => x.2))
    (markRead_pair_proj msgs ids now u o)
  rw [List.map_map, List.map_map] at h2
  exact h2

/-- Filtering strictly below the key of the last element of the first limit
entries of the projected query drops exactly those entries. -/
theorem projPage_drop (store : MsgStore) (u o : String) (bound : Option Nat)
    (limit : Nat) (x : Nat × Nat)
    (hkeys : ((store.msgs.filter (pairPred u o)).map (·.createdAt)).Nodup)
    (hx : ((projPage store u o bound).take limit).getLast? = some x) :
    projPage store u o (some x.2) = (projPage store u o bound).drop limit := by
  have hD : List.Pairwise (fun a b : Nat × Nat => b.2 < a.2)
      ((sortByCreatedDesc (store.msgs.filter (pairPred u o))).map pj) :=
    sortDesc_proj_strict hkeys
  have hFp : List.Pairwise (fun a b : Nat × Nat => b.2 < a.2)
      (projPage store u o bound) :=
    List.Pairwise.sublist (List.filter_sublist _) hD
  have hxFp : x ∈ projPage store u o bound :=
    (List.take_sublist _ _).subset (List.mem_of_mem_getLast? hx)
  have hxb : boundPredP bound x = true := List.of_mem_filter hxFp
  have h2 : (projPage store u o bound).filter
      (fun a => decide (a.2 < x.2)) =
      ((sortByCreatedDesc (store.msgs.filter (pairPred u o))).map pj).filter
        (fun a => decide (a.2 < x.2)) := by
    unfold projPage
    rw [List.filter_filter]
    refine List.filter_congr (fun a _ => ?_)
    rcases hlt : decide (a.2 < x.2) with _ | _
    · simp [hlt]
    · simp only [hlt, Bool.and_true, Bool.true_and]
      cases bound with
      | none => rfl
      | some t =>
        have hxt : x.2 < t := by simpa [boundPredP] using hxb
        have hax : a.2 < x.2 := of_decide_eq_true hlt
        simp only [boundPredP, decide_eq_true_eq]
        omega
  have h1 : projPage store u o (some x.2) =
      ((sortByCreatedDesc (store.msgs.filter (pairPred u o))).map pj).filter
        (fun a => decide (a.2 < x.2)) := rfl
  rw [h1, ← h2, filter_lt_last_take hFp hx]

/-- One step plus the remainder: the direction before pagination loop
enumerates, across its pages, exactly the remaining projected query, each
page in ascending chronological order. -/
theorem paginateBefore_loop (conns : ConnStore) (u o : String)
    (limit now : Nat) (hl1 : 1 ≤ limit) (hl2 : limit ≤ 100)
    (hconn : areConnected conns u o = true) :
    ∀ (fuel : Nat) (store : MsgStore) (cursor : Option Nat)
      (Fp : List (Nat × Nat)),
      (store.msgs.map (·.id)).Nodup →
      ((store.msgs.filter (pairPred u o)).map (·.createdAt)).Nodup →
      (∃ bound, projPage store u o bound = Fp ∧
        getMessages conns store u o cursor limit .before now =
          .ok (getMessagesCore store u o bound limit .before now)) →
      Fp.length < fuel →
      (((paginateBefore conns store u o limit cursor now fuel).flatten.map
          pv).Perm Fp ∧
       ∀ page ∈ paginateBefore conns store u o limit cursor now fuel,
         List.Pairwise (fun a b : MsgView => a.createdAt < b.createdAt)
           page) := by
  intro fuel
  induction fuel with
  | zero =>
    intro store cursor Fp _ _ _ hlt
    omega
  | succ fuel ih =>
    intro store cursor Fp hids hkeys hinv hfuel
    obtain ⟨bound, hFp, hrun⟩ := hinv
    obtain ⟨hmsg, hmore, hnext, hstore⟩ :=
      core_before_facts store u o bound limit now hkeys
    rw [hFp] at hmsg hmore hnext
    have hFpStrict : List.Pairwise (fun a b : Nat × Nat => b.2 < a.2) Fp := by
      rw [← hFp]
      exact List.Pairwise.sublist (List.filter_sublist _)
        (sortDesc_proj_strict hkeys)
    have hpagePW : List.Pairwise
        (fun a b : MsgView => a.createdAt < b.createdAt)
        ((getMessagesCore store u o bound limit .before now).2).messages := by
      have hrev : List.Pairwise (fun a b : Nat × Nat => a.2 < b.2)
          ((Fp.take limit).reverse) :=
        List.pairwise_reverse.mpr
          (List.Pairwise.sublist (List.take_sublist _ _) hFpStrict)
      rw [← hmsg] at hrev
      exact (List.pairwise_map.mp hrev).imp (fun h => h)
    have hstep : paginateBefore conns store u o limit cursor now (fuel + 1) =
        (if ((getMessagesCore store u o bound limit .before now).2).hasMore
         then
          ((getMessagesCore store u o bound limit .before now).2).messages ::
            paginateBefore conns
              ((getMessagesCore store u o bound limit .before now).1) u o
              limit
              ((getMessagesCore store u o bound limit .before now).2).nextCursor
              now fuel
         else
          [((getMessagesCore store u o bound limit .before now).2).messages])
        := by
      show (match getMessages conns store u o cursor limit .before now with
        | .error _ => []
        | .ok (store2, res) =>
          if res.hasMore then
            res.messages ::
              paginateBefore conns store2 u o limit res.nextCursor now fuel
          else [res.messages]) = _
      rw [hrun]
    rw [hstep]
    by_cases hlt : limit < Fp.length
    · rw [hmore]
      rw [if_pos (decide_eq_true hlt)]
      have hne : Fp.take limit ≠ [] := by
        intro h0
        have hlen := congrArg List.length h0
        rw [List.length_take] at hlen
        simp only [List.length_nil] at hlen
        omega
      obtain ⟨x, hx⟩ :=
        Option.isSome_iff_exists.mp (List.getLast?_isSome.mpr hne)
      have hnext2 : ((getMessagesCore store u o bound limit
          .before now).2).nextCursor = some x.1 := by
        rw [hnext, hx]
        rfl
      obtain ⟨m, hmmem, hmpair, hmpj⟩ :=
        mem_projPage (by
          rw [hFp]
          exact List.mem_of_mem_take (List.mem_of_mem_getLast? hx))
      have hids2 : (((getMessagesCore store u o bound limit
          .before now).1).msgs.map (·.id)).Nodup := by
        rw [hstore, markRead_ids]
        exact hids
      have hkeys2 : ((((getMessagesCore store u o bound limit
          .before now).1).msgs.filter (pairPred u o)).map
            (·.createdAt)).Nodup := by
        rw [hstore, markRead_keys]
        exact hkeys
      have hm2mem : markRead (unreadIdsOf store u o bound limit .before) now
          m ∈ ((getMessagesCore store u o bound limit .before now).1).msgs := by
        rw [hstore]
        exact List.mem_map_of_mem _ hmmem
      have hm2pj : pj (markRead (unreadIdsOf store u o bound limit .before)
          now m) = x := by
        rw [(markRead_proj u o _ now m).1, hmpj]
      have hm2id : (markRead (unreadIdsOf store u o bound limit .before) now
          m).id = x.1 := congrArg Prod.fst hm2pj
      have hm2t : (markRead (unreadIdsOf store u o bound limit .before) now
          m).createdAt = x.2 := congrArg Prod.snd hm2pj
      have hfind := find?_of_mem_nodup hids2 hm2mem
      rw [hm2id] at hfind
      have hrun2 := getMessages_ok_some conns
        ((getMessagesCore store u o bound limit .before now).1) u o x.1
        (markRead (unreadIdsOf store u o bound limit .before) now m) limit
        .before now hconn hl1 hl2 hfind
      rw [hm2t] at hrun2
      have hPP : projPage ((getMessagesCore store u o bound limit
          .before now).1) u o (some x.2) = Fp.drop limit := by
        have hsame : projPage ((getMessagesCore store u o bound limit
            .before now).1) u o (some x.2) =
            projPage store u o (some x.2) := by
          unfold projPage
          rw [hstore, markRead_sort_proj store.msgs _ now u o hkeys]
        rw [hsame, projPage_drop store u o bound limit x hkeys (by
          rw [hFp]
          exact hx), hFp]
      have hfuel2 : (Fp.drop limit).length < fuel := by
        rw [List.length_drop]
        omega
      obtain ⟨ihp, ihs⟩ := ih
        ((getMessagesCore store u o bound limit .before now).1) (some x.1)
        (Fp.drop limit) hids2 hkeys2 ⟨some x.2, hPP, hrun2⟩ hfuel2
      rw [hnext2]
      constructor
      · rw [List.flatten_cons, List.map_append, hmsg]
        have happ := (List.reverse_perm (Fp.take limit)).append ihp
        rw [List.take_append_drop] at happ
        exact happ
      · intro page hpage
        rcases List.mem_cons.mp hpage with heq | hmem
        · rw [heq]
          exact hpagePW
        · exact ihs page hmem
    · rw [hmore, decide_eq_false hlt]
      simp only [Bool.false_eq_true, if_false]
      have htake : Fp.take limit = Fp :=
        List.take_of_length_le (Nat.le_of_not_lt hlt)
      constructor
      · rw [List.flatten_cons, List.flatten_nil, List.append_nil, hmsg,
          htake]
        exact List.reverse_perm Fp
      · intro page hpage
        rcases List.mem_cons.mp hpage with heq | hmem
        · rw [heq]
          exact hpagePW
        · cases hmem

/-- C6 (amended): for a connected pair of valid users whose stored
documents have distinct ids and whose pair messages have pairwise distinct
createdAt timestamps, and any page size in [1,100], concatenating the pages
obtained by starting getMessages with no cursor and direction before and
then repeatedly passing the returned nextCursor yields every message of the
pair exactly once, with no gaps or duplicates, each page in ascending
chronological order. (Without the distinct-timestamp hypothesis the claim
fails: the cursor is resolved by id but compared by strict timestamp, so
tied rows straddling a page boundary are skipped.) -/
theorem getMessages_pagination_complete (conns : ConnStore)
    (store : MsgStore) (u o : String) (limit now : Nat)
    (hconn : areConnected conns u o = true)
    (hl1 : 1 ≤ limit) (hl2 : limit ≤ 100)
    (hids : (store.msgs.map (·.id)).Nodup)
    (hkeys : ((store.msgs.filter (pairPred u o)).map (·.createdAt)).Nodup) :
    (((paginateBeforeAll conns store u o limit now).flatten.map
        (·.id)).Perm ((store.msgs.filter (pairPred u o)).map (·.id))) ∧
    ∀ page ∈ paginateBeforeAll conns store u o limit now,
      List.Pairwise (fun a b : MsgView => a.createdAt < b.createdAt)
        page := by
  have hflen : (projPage store u o none).length < store.msgs.length + 1 := by
    have h1 : (projPage store u o none).length ≤
        ((sortByCreatedDesc (store.msgs.filter (pairPred u o))).map
          pj).length := (List.filter_sublist _).length_le
    rw [List.length_map, (sortByCreatedDesc_perm _).length_eq] at h1
    have h2 := List.length_filter_le (pairPred u o) store.msgs
    omega
  obtain ⟨hperm, hpw⟩ := paginateBefore_loop conns u o limit now hl1 hl2
    hconn (store.msgs.length + 1) store none (projPage store u o none) hids
    hkeys ⟨none, rfl, getMessages_ok_none conns store u o limit .before now
      hconn hl1 hl2⟩ hflen
  refine ⟨?_, hpw⟩
  have h1 := hperm.map (fun y : Nat × Nat => y.1)
  rw [List.map_map] at h1
  have h2 : (projPage store u o none).map (fun y : Nat × Nat => y.1) =
      ((sortByCreatedDesc (store.msgs.filter (pairPred u o))).map pj).map
        (fun y : Nat × Nat => y.1) := by
    unfold projPage
    have hfe : ((sortByCreatedDesc (store.msgs.filter (pairPred u o))).map
        pj).filter (boundPredP none) =
        (sortByCreatedDesc (store.msgs.filter (pairPred u o))).map pj :=
      List.filter_eq_self.mpr (fun a _ => rfl)
    rw [hfe]
  rw [h2, List.map_map] at h1
  have h3 : ((sortByCreatedDesc (store.msgs.filter (pairPred u o))).map
      ((fun y : Nat × Nat => y.1) ∘ pj)).Perm
      ((store.msgs.filter (pairPred u o)).map
        ((fun y : Nat × Nat => y.1) ∘ pj)) :=
    (sortByCreatedDesc_perm _).map _
  exact h1.trans h3

/-- C6 witness: on a concrete connected pair with two messages at distinct
timestamps and page size 1, the two pages together enumerate both message
ids exactly once, each page chronologically ascending. -/
theorem getMessages_pagination_complete_witness :
    areConnected connsW userA_id userB_id = true ∧
    1 ≤ 1 ∧ (1 : Nat) ≤ 100 ∧
    (storeY.msgs.map (·.id)).Nodup ∧
    ((storeY.msgs.filter (pairPred userA_id userB_id)).map
      (·.createdAt)).Nodup ∧
    ((((paginateBeforeAll connsW storeY userA_id userB_id 1 9).flatten.map
        (·.id)).Perm ((storeY.msgs.filter (pairPred userA_id
          userB_id)).map (·.id))) ∧
     ∀ page ∈ paginateBeforeAll connsW storeY userA_id userB_id 1 9,
       List.Pairwise (fun a b : MsgView => a.createdAt < b.createdAt)
         page) :=
  ⟨by decide, by decide, by decide, by decide, by decide,
   getMessages_pagination_complete connsW storeY userA_id userB_id 1 9
     (by decide) (by decide) (by decide) (by decide) (by decide)⟩

/-- C6 counterexample: two pair messages share a createdAt; with page size
1 the before pagination returns a page holding the newer-sorted one and
then an empty final page, so the concatenation misses a pair message though
the users are connected and the page size is in range. The cursor is
resolved by id but filters by strict timestamp, skipping the tied row. -/
theorem getMessages_pagination_ties_counterexample :
    areConnected connsW userA_id userB_id = true ∧
    (storeTies.msgs.filter (pairPred userA_id userB_id)).map (·.id) =
      [0, 1] ∧
    ((paginateBeforeAll connsW storeTies userA_id userB_id 1 9).flatten.map
      (·.id)) = [0] := by
  refine ⟨by decide, by decide, ?_⟩
  decide
